import Mathlib

/-!
Verification of the conversation-synchronization core of the repository.

The definitions below are shallow embeddings of the TypeScript source:
  * `src/sdk-app/src/sdk-core/utils/textFilter.ts`   (filterThinkingTags)
  * `src/sdk-app/src/components/ChatInput.vue`       (timeline assembler state
    and the WebSocket event handlers)
  * `src/sdk-app/src/sdk-core/websocket/chatSocket.ts` (transport client)

Conventions used throughout:
  * JS strings are `String`, timestamps (`Date` values) are `Nat` milliseconds.
  * JS objects used as string-keyed records are association lists in key
    insertion order; assignment keeps the position of an existing key and
    appends a new key at the end, matching JS object key enumeration order
    for non-index keys.
  * Optional / possibly-undefined JS fields are `Option`; where the source
    relies on JS truthiness of a string (empty string is falsy) the model
    tests for the empty string explicitly.
  * Functions that the source writes with unbounded scan loops are given a
    fuel argument; the top-level wrappers pass the input length, which is an
    upper bound on the number of scan steps, so the fuel never runs out.
-/

/-! ## Embedding of `filterThinkingTags` (textFilter.ts, lines 10-39)

The source applies, in order:
  1. `replace(/<thinking>[\s\S]*?<\/thinking>/gi, "")`
  2. `replace(/<thinking>[\s\S]*$/gi, "")`
  3. `replace(/<\/thinking>/gi, "")`
  4. `replace(/\s+/g, " ")` followed by `.trim()`
with an early return for the empty (falsy) input string.
-/

/-- The literal characters of the opening tag. -/
def openTag : List Char := "<thinking>".data

/-- The literal characters of the closing tag. -/
def closeTag : List Char := "</thinking>".data

/-- Case-insensitive prefix test, the `i` regex flag on a literal pattern. -/
def ciStarts : List Char → List Char → Bool
  | [], _ => true
  | _ :: _, [] => false
  | p :: ps, c :: cs => (p.toLower == c.toLower) && ciStarts ps cs

/-- Whether some suffix of the text starts with `<thinking>` (case-insensitive),
i.e. whether the second regex pass can match anywhere. -/
def containsOpen : List Char → Bool
  | [] => false
  | c :: cs => ciStarts openTag (c :: cs) || containsOpen cs

/-- Whether some suffix of the text starts with `</thinking>` (case-insensitive). -/
def containsClose : List Char → Bool
  | [] => false
  | c :: cs => ciStarts closeTag (c :: cs) || containsClose cs

/-- Scan for the first case-insensitive occurrence of `</thinking>` and return
the characters after it; `none` when no closing tag occurs.  This is the
search the lazy `[\s\S]*?<\/thinking>` part of the first regex performs. -/
def dropAfterClose : List Char → Option (List Char)
  | [] => none
  | c :: cs =>
    if ciStarts closeTag (c :: cs) then some ((c :: cs).drop closeTag.length)
    else dropAfterClose cs

/-- First pass: remove every properly paired `<thinking>...</thinking>` span,
scanning left to right and continuing after each removed span, exactly as the
global lazy regex does.  An opening tag with no closing tag anywhere after it
does not match and is kept.  The fuel bounds the scan; each step consumes at
least one input character, so fuel equal to the input length suffices. -/
def removePaired : Nat → List Char → List Char
  | 0, l => l
  | _ + 1, [] => []
  | fuel + 1, c :: cs =>
    if ciStarts openTag (c :: cs) then
      match dropAfterClose ((c :: cs).drop openTag.length) with
      | some rest => removePaired fuel rest
      | none => c :: removePaired fuel cs
    else c :: removePaired fuel cs

/-- Second pass: remove any unterminated `<thinking>` through end of text
(`/<thinking>[\s\S]*$/gi`). -/
def removeUnterminated : List Char → List Char
  | [] => []
  | c :: cs =>
    if ciStarts openTag (c :: cs) then [] else c :: removeUnterminated cs

/-- Third pass: strip stray closing tags (`/<\/thinking>/gi`). -/
def removeStrayClose : Nat → List Char → List Char
  | 0, l => l
  | _ + 1, [] => []
  | fuel + 1, c :: cs =>
    if ciStarts closeTag (c :: cs) then
      removeStrayClose fuel ((c :: cs).drop closeTag.length)
    else c :: removeStrayClose fuel cs

/-- The character class `\s` of JS regular expressions (also the set trimmed
by `String.prototype.trim`). -/
def isJsSpace (c : Char) : Bool :=
  c == ' ' || c == '\t' || c == '\n' || c == '\r' || c == '\u000B' || c == '\u000C' ||
  c == '\u00A0' || c == '\u1680' || ('\u2000' ≤ c && c ≤ '\u200A') ||
  c == '\u2028' || c == '\u2029' || c == '\u202F' || c == '\u205F' ||
  c == '\u3000' || c == '\uFEFF'

/-- Fourth pass, first half: `replace(/\s+/g, " ")` — each maximal run of
whitespace becomes a single space. -/
def collapseWs : List Char → List Char
  | [] => []
  | [c] => if isJsSpace c then [' '] else [c]
  | c :: c2 :: cs =>
    if isJsSpace c && isJsSpace c2 then collapseWs (c2 :: cs)
    else (if isJsSpace c then ' ' else c) :: collapseWs (c2 :: cs)

/-- `String.prototype.trim`: drop leading and trailing JS whitespace. -/
def jsTrim (l : List Char) : List Char :=
  ((l.dropWhile isJsSpace).reverse.dropWhile isJsSpace).reverse

/-- `trim` on strings. -/
def jsTrimStr (s : String) : String :=
  String.mk (jsTrim s.data)

/-- `filterThinkingTags` from `textFilter.ts`: the four passes in source
order, with the early return for the falsy empty string. -/
def filterThinkingTags (text : String) : String :=
  if text = "" then text
  else
    let l0 := text.data
    let l1 := removePaired l0.length l0
    let l2 := removeUnterminated l1
    let l3 := removeStrayClose l2.length l2
    String.mk (jsTrim (collapseWs l3))

/-! ### Helper lemmas about the passes -/

/-- A text with no opening tag is unchanged by the paired-span pass. -/
theorem removePaired_of_no_open (fuel : Nat) (l : List Char)
    (h : containsOpen l = false) : removePaired fuel l = l := by
  induction fuel generalizing l with
  | zero => rfl
  | succ fuel ih =>
    cases l with
    | nil => rfl
    | cons c cs =>
      simp only [containsOpen, Bool.or_eq_false_iff] at h
      simp only [removePaired, h.1, Bool.false_eq_true, if_false]
      exact congrArg (List.cons c) (ih cs h.2)

/-- A text with no opening tag is unchanged by the unterminated-tag pass. -/
theorem removeUnterminated_of_no_open (l : List Char)
    (h : containsOpen l = false) : removeUnterminated l = l := by
  induction l with
  | nil => rfl
  | cons c cs ih =>
    simp only [containsOpen, Bool.or_eq_false_iff] at h
    simp only [removeUnterminated, h.1, Bool.false_eq_true, if_false]
    exact congrArg (List.cons c) (ih h.2)

/-- A text with no closing tag is unchanged by the stray-closing-tag pass. -/
theorem removeStrayClose_of_no_close (fuel : Nat) (l : List Char)
    (h : containsClose l = false) : removeStrayClose fuel l = l := by
  induction fuel generalizing l with
  | zero => rfl
  | succ fuel ih =>
    cases l with
    | nil => rfl
    | cons c cs =>
      simp only [containsClose, Bool.or_eq_false_iff] at h
      simp only [removeStrayClose, h.1, Bool.false_eq_true, if_false]
      exact congrArg (List.cons c) (ih cs h.2)

/-- On an input with no thinking tags at all, the filter is exactly
whitespace collapsing followed by trimming. -/
theorem filterThinkingTags_no_tags (s : String)
    (ho : containsOpen s.data = false) (hc : containsClose s.data = false) :
    filterThinkingTags s = String.mk (jsTrim (collapseWs s.data)) := by
  by_cases hs : s = ""
  · subst hs; rfl
  · simp only [filterThinkingTags, if_neg hs, removePaired_of_no_open _ _ ho,
      removeUnterminated_of_no_open _ ho, removeStrayClose_of_no_close _ _ hc]

/-! ## Data model of the Timeline Assembler (ChatInput.vue)

`Message` follows the SDK `Message` interface (sdk-core/types.ts lines 55-84);
the fields the assembler never branches on (`metadata`) are omitted, optional
fields are `Option`. -/

/-- `sender: 'user' | 'bot'`. -/
inductive Sender
  | user
  | bot
deriving DecidableEq, Repr

/-- `status?: 'sending' | 'sent' | 'delivered' | 'failed' | 'streaming'`. -/
inductive MsgStatus
  | sending
  | sent
  | delivered
  | failed
  | streaming
deriving DecidableEq, Repr

/-- One quick-reply button after normalization by `processOutputStack`
(ChatInput.vue lines 513-520). -/
structure QuickReply where
  id : String
  title : String
  imageUrl : Option String
  imageAltText : Option String
  contentType : String
  payload : String
deriving DecidableEq, Repr

/-- An SDK chat message. -/
structure Message where
  id : String
  conversationId : String
  text : String
  sender : Sender
  timestamp : Nat
  status : MsgStatus
  isHtml : Option Bool := none
  quickReplies : Option (List QuickReply) := none
deriving DecidableEq, Repr

/-- `structuredResult.meta` of a parsed tool payload; only `historyItemId`
is read (ChatInput.vue line 1016). -/
structure StructuredResult where
  metaHistoryItemId : Option String
deriving DecidableEq, Repr

/-- The fields of `JSON.parse(backendMsg.content)` that `handleInitAck`
probes.  `JSON.parse` itself is a host primitive; the model injects its
outcome through a `parse` function returning `none` when parsing throws. -/
structure ToolJson where
  structuredResult : Option StructuredResult
  historyItemId : Option String
  draftId : Option String
  articleId : Option String
  sql : Option String
deriving DecidableEq, Repr

/-- The `quickAction` descriptor on a data-query group
(ChatInput.vue lines 248-252 and 1047-1056). -/
structure QuickAction where
  label : String
  actionType : String
  payloadGroupId : Option String
  payloadToolName : Option String
  payloadHistoryItemId : Option String
  payloadSql : Option String
deriving DecidableEq, Repr

/-- The terminal structured result attached to a group,
`{ toolName, result }` (ChatInput.vue lines 242-245). -/
structure ToolResult where
  toolName : String
  result : ToolJson
deriving DecidableEq, Repr

/-- `DataQueryGroup` (ChatInput.vue lines 240-254). -/
structure DataQueryGroup where
  groupId : String
  result : Option ToolResult
  streamingText : String
  isStreaming : Bool
  quickAction : Option QuickAction
  timestamp : Nat
deriving DecidableEq, Repr

/-- The `data` payload of an app event; the live path never inspects it,
the bootstrap path builds `{draftId}` or `{articleId}` objects
(ChatInput.vue lines 1063-1079). -/
inductive AppEventData
  | draftRef (draftId : String)
  | articleRef (articleId : String)
  | generic (tag : Nat)
deriving DecidableEq, Repr

/-- `AppEventPayload` (websocket/types.ts lines 95-99). -/
structure AppEventPayload where
  eventType : String
  data : AppEventData
  groupId : Option String := none
deriving DecidableEq, Repr

/-- An app event together with the timestamp captured when it was received
(ChatInput.vue lines 259-262). -/
structure AppEventWithTimestamp where
  payload : AppEventPayload
  timestamp : Nat
deriving DecidableEq, Repr

/-- The reactive state of the assembler inside the ChatInput component:
`messages`, `dataQueryGroups` (a string-keyed JS object in insertion order),
`appEvents`, the streaming refs, the active conversation id, and the typing
flag. -/
structure ChatState where
  messages : List Message
  dataQueryGroups : List (String × DataQueryGroup)
  appEvents : List AppEventWithTimestamp
  streamingMessageId : Option String
  streamingContent : String
  conversationId : String
  isTyping : Bool
deriving DecidableEq, Repr

/-- The component state right after setup: every collection empty. -/
def emptyChatState : ChatState :=
  { messages := []
    dataQueryGroups := []
    appEvents := []
    streamingMessageId := none
    streamingContent := ""
    conversationId := ""
    isTyping := false }

/-! ### JS-object and array helpers -/

/-- Property read `obj[key]` on a string-keyed JS object. -/
def recordGet (m : List (String × α)) (k : String) : Option α :=
  (m.find? (fun p => p.1 == k)).map (fun p => p.2)

/-- Property write `obj[key] = v`: replace in place when the key exists
(keys are unique in a JS object, so replacing the first occurrence suffices),
append otherwise (JS key insertion order). -/
def recordUpsert : List (String × α) → String → α → List (String × α)
  | [], k, v => [(k, v)]
  | p :: ps, k, v => if p.1 == k then (k, v) :: ps else p :: recordUpsert ps k v

/-- `arr.findIndex(pred)` followed by an update of that single element;
identity when no element matches. -/
def updateFirst (pred : α → Bool) (f : α → α) : List α → List α
  | [] => []
  | x :: xs => if pred x then f x :: xs else x :: updateFirst pred f xs

/-- `messages.value.find(m => m.id === id)`. -/
def msgLookup (l : List Message) (id : String) : Option Message :=
  l.find? (fun m => m.id == id)

/-! ### Live reconstruction: `handleAssistantToken` (ChatInput.vue 1128-1194)

The handler takes the timestamp `now` at which the event is delivered
(the value `new Date()` would produce). -/

/-- `AssistantTokenPayload` (websocket/types.ts lines 69-74). -/
structure AssistantTokenPayload where
  messageId : String
  delta : String
  isFinal : Bool
  groupId : Option String := none
deriving DecidableEq, Repr

/-- `handleAssistantToken`: a token with a `groupId` is routed to its
`DataQueryGroup` (appending the delta to that group only, creating the group
when absent); a token without one appends to the single shared
`streamingContent` buffer and writes the whole buffer into the pending
message keyed `streaming-<messageId>`. -/
def handleAssistantToken (now : Nat) (s : ChatState) (p : AssistantTokenPayload) :
    ChatState :=
  let s := { s with isTyping := false }
  match p.groupId with
  | some gid =>
    match recordGet s.dataQueryGroups gid with
    | some current =>
      let updated :=
        { current with
          streamingText := current.streamingText ++ p.delta,
          isStreaming := true }
      { s with dataQueryGroups := recordUpsert s.dataQueryGroups gid updated }
    | none =>
      let created : DataQueryGroup :=
        { groupId := gid,
          result := none,
          streamingText := p.delta,
          isStreaming := true,
          quickAction := none,
          timestamp := now }
      { s with dataQueryGroups := recordUpsert s.dataQueryGroups gid created }
  | none =>
    let newContent := s.streamingContent ++ p.delta
    let sid := "streaming-" ++ p.messageId
    let messages :=
      if s.messages.any (fun m => m.id == sid) then
        updateFirst (fun m => m.id == sid)
          (fun m => { m with text := newContent, status := .streaming }) s.messages
      else
        s.messages ++
          [{ id := sid,
             conversationId := s.conversationId,
             text := newContent,
             sender := .bot,
             timestamp := now,
             status := .streaming }]
    { s with streamingContent := newContent, messages := messages }

/-- Delivering a sequence of token events in arrival order, each with the
timestamp at which it arrives. -/
def deliverTokens (s : ChatState) (evs : List (Nat × AssistantTokenPayload)) :
    ChatState :=
  evs.foldl (fun st e => handleAssistantToken e.1 st e.2) s

/-- The deltas of the events addressed to group `g`, in delivery order. -/
def groupDeltas (g : String) (evs : List (Nat × AssistantTokenPayload)) :
    List String :=
  (evs.filter (fun e => e.2.groupId == some g)).map (fun e => e.2.delta)

/-! ### Per-group accumulation (claim C1) -/

/-- Concatenation of a list of strings in order. -/
def concatAll : List String → String
  | [] => ""
  | d :: ds => d ++ concatAll ds

/-- The streaming text of one group after a sequence of its deltas, starting
either from no group (`none`) or from a group holding text `t` (`some t`). -/
def accumText : Option String → List String → Option String
  | o, [] => o
  | none, d :: ds => accumText (some d) ds
  | some t, d :: ds => accumText (some (t ++ d)) ds

theorem sbeq_of_eq {a b : String} (h : a = b) : (a == b) = true := by
  subst h; simp

theorem sbeq_of_ne {a b : String} (h : ¬ a = b) : (a == b) = false := by
  cases hb : a == b
  · rfl
  · exact absurd (eq_of_beq hb) h

theorem accumText_nil (o : Option String) : accumText o [] = o := by
  cases o <;> rfl

theorem recordGet_nil (k : String) : recordGet ([] : List (String × α)) k = none := rfl

theorem recordGet_cons (p : String × α) (ps : List (String × α)) (k : String) :
    recordGet (p :: ps) k = if p.1 == k then some p.2 else recordGet ps k := by
  by_cases h : (p.1 == k) = true
  · simp [recordGet, List.find?_cons_of_pos, h]
  · simp only [Bool.not_eq_true] at h
    simp [recordGet, List.find?, h]

theorem recordGet_upsert_self (m : List (String × α)) (k : String) (v : α) :
    recordGet (recordUpsert m k v) k = some v := by
  induction m with
  | nil => simp [recordUpsert, recordGet_cons, recordGet_nil]
  | cons p ps ih =>
    by_cases h : p.1 = k
    · simp [recordUpsert, sbeq_of_eq h, recordGet_cons]
    · simp only [recordUpsert, sbeq_of_ne h, Bool.false_eq_true, if_false]
      rw [recordGet_cons, sbeq_of_ne h]
      simpa using ih

theorem recordGet_upsert_other (m : List (String × α)) (k : String) (v : α)
    (k2 : String) (h : ¬ k2 = k) :
    recordGet (recordUpsert m k v) k2 = recordGet m k2 := by
  have hk : ¬ k = k2 := fun hc => h hc.symm
  induction m with
  | nil => simp [recordUpsert, recordGet_cons, recordGet_nil, sbeq_of_ne hk]
  | cons p ps ih =>
    by_cases hp : p.1 = k
    · subst hp
      simp [recordUpsert, sbeq_of_eq (Eq.refl p.1), recordGet_cons, sbeq_of_ne hk]
    · simp only [recordUpsert, sbeq_of_ne hp, Bool.false_eq_true, if_false]
      rw [recordGet_cons, recordGet_cons]
      by_cases hp2 : p.1 = k2
      · simp [sbeq_of_eq hp2]
      · rw [sbeq_of_ne hp2]
        simpa using ih

/-- A token without a group id never touches the group record. -/
theorem handleAssistantToken_groups_of_ungrouped (now : Nat) (s : ChatState)
    (p : AssistantTokenPayload) (h : p.groupId = none) :
    (handleAssistantToken now s p).dataQueryGroups = s.dataQueryGroups := by
  simp [handleAssistantToken, h]

/-- Core accumulation invariant: after delivering any event sequence, the
streaming text recorded for group `g` is obtained by appending exactly the
deltas addressed to `g`, in delivery order, to whatever the group held
before; events of other groups and ungrouped events do not contribute. -/
theorem deliverTokens_group_text (evs : List (Nat × AssistantTokenPayload))
    (s : ChatState) (g : String) :
    (recordGet (deliverTokens s evs).dataQueryGroups g).map DataQueryGroup.streamingText
      = accumText
          ((recordGet s.dataQueryGroups g).map DataQueryGroup.streamingText)
          (groupDeltas g evs) := by
  induction evs generalizing s with
  | nil => simp [deliverTokens, groupDeltas, accumText_nil]
  | cons e es ih =>
    have hstep : deliverTokens s (e :: es)
        = deliverTokens (handleAssistantToken e.1 s e.2) es := rfl
    rw [hstep, ih]
    rcases hg : e.2.groupId with _ | gid
    · rw [handleAssistantToken_groups_of_ungrouped e.1 s e.2 hg]
      have hd : groupDeltas g (e :: es) = groupDeltas g es := by
        simp [groupDeltas, List.filter, hg]
      rw [hd]
    · by_cases hgg : gid = g
      · subst hgg
        have hdelta : groupDeltas gid (e :: es) = e.2.delta :: groupDeltas gid es := by
          simp [groupDeltas, List.filter, hg]
        rw [hdelta]
        rcases hcur : recordGet s.dataQueryGroups gid with _ | current
        · simp only [handleAssistantToken, hg, hcur]
          rw [recordGet_upsert_self]
          simp [accumText]
        · simp only [handleAssistantToken, hg, hcur]
          rw [recordGet_upsert_self]
          simp [accumText]
      · have hdelta : groupDeltas g (e :: es) = groupDeltas g es := by
          have hne : (e.2.groupId == some g) = false := by
            rw [hg]
            cases hb : (some gid == some g)
            · rfl
            · exact absurd (by injection eq_of_beq hb) hgg
          simp [groupDeltas, List.filter, hne]
        rw [hdelta]
        have hget : recordGet (handleAssistantToken e.1 s e.2).dataQueryGroups g
            = recordGet s.dataQueryGroups g := by
          rcases hcur : recordGet s.dataQueryGroups gid with _ | current
          · simp only [handleAssistantToken, hg, hcur]
            exact recordGet_upsert_other _ _ _ _ (fun hc => hgg hc.symm)
          · simp only [handleAssistantToken, hg, hcur]
            exact recordGet_upsert_other _ _ _ _ (fun hc => hgg hc.symm)
        rw [hget]

theorem accumText_some (ds : List String) (t : String) :
    accumText (some t) ds = some (t ++ concatAll ds) := by
  induction ds generalizing t with
  | nil => simp [accumText, concatAll]
  | cons d ds ih =>
    simp only [accumText, concatAll, ih, Option.some.injEq]
    rw [String.append_assoc]

theorem accumText_none_of_ne_nil (ds : List String) (h : ds ≠ []) :
    accumText none ds = some (concatAll ds) := by
  cases ds with
  | nil => exact absurd rfl h
  | cons d ds => simp [accumText, accumText_some, concatAll]

/-- C1: for any two distinct group identifiers A and B, delivering
assistant_token events in any interleaved order yields, after all
deliveries, an accumulated streamingText for each of the two groups equal
to the concatenation of only that group's own deltas in delivery order.
The statement quantifies over arbitrary delivery sequences, which includes
the strict alternation A,B,A,B,...; because each group's final text equals
the concatenation of exactly its own deltas, neither group's text picks up
a delta of the other. -/
theorem C1_token_interleaving (A B : String) (hAB : A ≠ B)
    (evs : List (Nat × AssistantTokenPayload)) (s0 : ChatState)
    (hA0 : recordGet s0.dataQueryGroups A = none)
    (hB0 : recordGet s0.dataQueryGroups B = none)
    (hAne : groupDeltas A evs ≠ [])
    (hBne : groupDeltas B evs ≠ []) :
    ∃ grA grB,
      recordGet (deliverTokens s0 evs).dataQueryGroups A = some grA ∧
      grA.streamingText = concatAll (groupDeltas A evs) ∧
      recordGet (deliverTokens s0 evs).dataQueryGroups B = some grB ∧
      grB.streamingText = concatAll (groupDeltas B evs) := by
  have hAcc := deliverTokens_group_text evs s0 A
  have hBcc := deliverTokens_group_text evs s0 B
  rw [hA0] at hAcc
  rw [hB0] at hBcc
  simp only [Option.map_none'] at hAcc hBcc
  rw [accumText_none_of_ne_nil _ hAne] at hAcc
  rw [accumText_none_of_ne_nil _ hBne] at hBcc
  rcases hgA : recordGet (deliverTokens s0 evs).dataQueryGroups A with _ | grA
  · rw [hgA] at hAcc; simp at hAcc
  · rcases hgB : recordGet (deliverTokens s0 evs).dataQueryGroups B with _ | grB
    · rw [hgB] at hBcc; simp at hBcc
    · rw [hgA] at hAcc
      rw [hgB] at hBcc
      simp only [Option.map_some', Option.some.injEq] at hAcc hBcc
      exact ⟨grA, grB, rfl, hAcc, rfl, hBcc⟩

/-- Witness for C1 at a concrete alternating delivery A,B,A,B. -/
theorem C1_token_interleaving_witness :
    ("gA" : String) ≠ "gB" ∧
    recordGet emptyChatState.dataQueryGroups "gA" = none ∧
    recordGet emptyChatState.dataQueryGroups "gB" = none ∧
    groupDeltas "gA"
      [(1, ⟨"m", "a1", false, some "gA"⟩), (2, ⟨"m", "b1", false, some "gB"⟩),
       (3, ⟨"m", "a2", false, some "gA"⟩), (4, ⟨"m", "b2", true, some "gB"⟩)] ≠ [] ∧
    groupDeltas "gB"
      [(1, ⟨"m", "a1", false, some "gA"⟩), (2, ⟨"m", "b1", false, some "gB"⟩),
       (3, ⟨"m", "a2", false, some "gA"⟩), (4, ⟨"m", "b2", true, some "gB"⟩)] ≠ [] ∧
    (∃ grA grB,
      recordGet (deliverTokens emptyChatState
        [(1, ⟨"m", "a1", false, some "gA"⟩), (2, ⟨"m", "b1", false, some "gB"⟩),
         (3, ⟨"m", "a2", false, some "gA"⟩), (4, ⟨"m", "b2", true, some "gB"⟩)]).dataQueryGroups "gA"
        = some grA ∧
      grA.streamingText = concatAll (groupDeltas "gA"
        [(1, ⟨"m", "a1", false, some "gA"⟩), (2, ⟨"m", "b1", false, some "gB"⟩),
         (3, ⟨"m", "a2", false, some "gA"⟩), (4, ⟨"m", "b2", true, some "gB"⟩)]) ∧
      recordGet (deliverTokens emptyChatState
        [(1, ⟨"m", "a1", false, some "gA"⟩), (2, ⟨"m", "b1", false, some "gB"⟩),
         (3, ⟨"m", "a2", false, some "gA"⟩), (4, ⟨"m", "b2", true, some "gB"⟩)]).dataQueryGroups "gB"
        = some grB ∧
      grB.streamingText = concatAll (groupDeltas "gB"
        [(1, ⟨"m", "a1", false, some "gA"⟩), (2, ⟨"m", "b1", false, some "gB"⟩),
         (3, ⟨"m", "a2", false, some "gA"⟩), (4, ⟨"m", "b2", true, some "gB"⟩)])) :=
  ⟨by decide, rfl, rfl, by decide, by decide,
    C1_token_interleaving "gA" "gB" (by decide) _ emptyChatState rfl rfl
      (by decide) (by decide)⟩

/-- C2: the thinking-redaction function removes every properly paired
thinking span, then unterminated opens, then stray closes, then collapses
whitespace and trims; the two boundary examples evaluate as specified, and
an input containing no thinking tags at all is returned unchanged except
for whitespace collapsing and trimming. -/
theorem C2_thinking_redaction (s : String)
    (ho : containsOpen s.data = false) (hc : containsClose s.data = false) :
    filterThinkingTags "<thinking>ignore</thinking>Hello" = "Hello" ∧
    filterThinkingTags "<thinking>unterminated" = "" ∧
    filterThinkingTags s = String.mk (jsTrim (collapseWs s.data)) :=
  ⟨by decide, by decide, filterThinkingTags_no_tags s ho hc⟩

/-- Witness for C2 at the tag-free input "a  b". -/
theorem C2_thinking_redaction_witness :
    containsOpen "a  b".data = false ∧
    containsClose "a  b".data = false ∧
    (filterThinkingTags "<thinking>ignore</thinking>Hello" = "Hello" ∧
     filterThinkingTags "<thinking>unterminated" = "" ∧
     filterThinkingTags "a  b" = String.mk (jsTrim (collapseWs "a  b".data))) :=
  ⟨by decide, by decide, C2_thinking_redaction "a  b" (by decide) (by decide)⟩

/-! ### Ungrouped token accumulation (claim C10) -/

/-- The prefix of a delivery sequence up to and including the last event
bearing message id `mid` (empty when `mid` never occurs). -/
def takeToLast (mid : String) (evs : List (Nat × AssistantTokenPayload)) :
    List (Nat × AssistantTokenPayload) :=
  (evs.reverse.dropWhile (fun e => !(e.2.messageId == mid))).reverse

/-- Concatenation of every delta of a delivery sequence, regardless of the
message id it carries. -/
def allDeltas (evs : List (Nat × AssistantTokenPayload)) : String :=
  concatAll (evs.map (fun e => e.2.delta))

theorem concatAll_append (xs ys : List String) :
    concatAll (xs ++ ys) = concatAll xs ++ concatAll ys := by
  induction xs with
  | nil => simp [concatAll]
  | cons x xs ih => simp [concatAll, ih, String.append_assoc]

theorem allDeltas_append_last (es : List (Nat × AssistantTokenPayload))
    (e : Nat × AssistantTokenPayload) :
    allDeltas (es ++ [e]) = allDeltas es ++ e.2.delta := by
  simp [allDeltas, concatAll_append, concatAll]

theorem string_append_right_ne {pre a b : String} (h : a ≠ b) :
    pre ++ a ≠ pre ++ b := by
  intro hc
  apply h
  have hd := congrArg String.data hc
  simp only [String.data_append] at hd
  exact String.ext (List.append_cancel_left hd)

/-- An ungrouped token leaves the shared buffer appended with its delta. -/
theorem handleAssistantToken_content_of_ungrouped (now : Nat) (s : ChatState)
    (p : AssistantTokenPayload) (h : p.groupId = none) :
    (handleAssistantToken now s p).streamingContent
      = s.streamingContent ++ p.delta := by
  simp [handleAssistantToken, h]

theorem deliverTokens_append_last (s : ChatState)
    (es : List (Nat × AssistantTokenPayload)) (e : Nat × AssistantTokenPayload) :
    deliverTokens s (es ++ [e])
      = handleAssistantToken e.1 (deliverTokens s es) e.2 := by
  simp [deliverTokens, List.foldl_append]

/-- The shared buffer after an all-ungrouped delivery holds the
concatenation of every delta delivered. -/
theorem deliverTokens_content (s0 : ChatState)
    (evs : List (Nat × AssistantTokenPayload))
    (hug : ∀ e ∈ evs, e.2.groupId = none) :
    (deliverTokens s0 evs).streamingContent
      = s0.streamingContent ++ allDeltas evs := by
  induction evs generalizing s0 with
  | nil => simp [deliverTokens, allDeltas, concatAll]
  | cons e es ih =>
    have hstep : deliverTokens s0 (e :: es)
        = deliverTokens (handleAssistantToken e.1 s0 e.2) es := rfl
    rw [hstep, ih _ (fun x hx => hug x (List.mem_cons_of_mem e hx))]
    rw [handleAssistantToken_content_of_ungrouped e.1 s0 e.2
      (hug e (List.mem_cons_self e es))]
    have : allDeltas (e :: es) = e.2.delta ++ allDeltas es := by
      simp [allDeltas, concatAll]
    rw [this, String.append_assoc]

theorem find?_updateFirst_self (l : List Message) (pred : Message → Bool)
    (f : Message → Message) (hf : ∀ m, pred (f m) = pred m) :
    (updateFirst pred f l).find? pred = (l.find? pred).map f := by
  induction l with
  | nil => simp [updateFirst]
  | cons x xs ih =>
    by_cases hx : pred x = true
    · simp [updateFirst, hx, List.find?_cons_of_pos, hf]
    · simp only [Bool.not_eq_true] at hx
      simp [updateFirst, hx, List.find?, ih]

theorem find?_updateFirst_other (l : List Message) (pred pred2 : Message → Bool)
    (f : Message → Message) (hdisj : ∀ m, pred2 m = true → pred m = false)
    (hfp : ∀ m, pred (f m) = pred m) :
    (updateFirst pred2 f l).find? pred = l.find? pred := by
  induction l with
  | nil => simp [updateFirst]
  | cons x xs ih =>
    by_cases hx : pred2 x = true
    · have h1 : pred (f x) = false := by rw [hfp]; exact hdisj x hx
      have h2 : pred x = false := hdisj x hx
      simp [updateFirst, hx, List.find?, h1, h2]
    · simp only [Bool.not_eq_true] at hx
      by_cases hpx : pred x = true
      · simp [updateFirst, hx, List.find?, hpx]
      · simp only [Bool.not_eq_true] at hpx
        simp [updateFirst, hx, List.find?, hpx, ih]

/-- After an ungrouped token for message id `mid`, the pending message
`streaming-<mid>` holds the whole shared buffer (old buffer plus delta). -/
theorem handleAssistantToken_lookup_self (now : Nat) (s : ChatState)
    (p : AssistantTokenPayload) (h : p.groupId = none) :
    ∃ m, msgLookup (handleAssistantToken now s p).messages
           ("streaming-" ++ p.messageId) = some m ∧
         m.text = s.streamingContent ++ p.delta := by
  by_cases hany : (s.messages.any
      (fun m => m.id == ("streaming-" ++ p.messageId))) = true
  · simp only [handleAssistantToken, h, msgLookup, hany, if_true]
    rw [find?_updateFirst_self s.messages
      (fun m => m.id == ("streaming-" ++ p.messageId))
      (fun m => { m with text := s.streamingContent ++ p.delta, status := .streaming })
      (fun m => rfl)]
    rcases hfind : s.messages.find? (fun m => m.id == ("streaming-" ++ p.messageId))
      with _ | m
    · rw [List.find?_eq_none] at hfind
      rcases List.any_eq_true.mp hany with ⟨x, hx, hpx⟩
      exact absurd hpx (by simp [hfind x hx])
    · rw [hfind]
      exact ⟨_, rfl, rfl⟩
  · simp only [Bool.not_eq_true] at hany
    simp only [handleAssistantToken, h, msgLookup, hany, Bool.false_eq_true, if_false]
    rw [List.find?_append]
    have hnone : s.messages.find? (fun m => m.id == ("streaming-" ++ p.messageId))
        = none := by
      rw [List.find?_eq_none]
      intro x hx
      have := List.any_eq_false.mp hany x hx
      simpa using this
    rw [hnone]
    simp [List.find?]

/-- An ungrouped token for a different message id leaves the pending message
of `mid` untouched. -/
theorem handleAssistantToken_lookup_other (now : Nat) (s : ChatState)
    (p : AssistantTokenPayload) (h : p.groupId = none) (mid : String)
    (hne : mid ≠ p.messageId) :
    msgLookup (handleAssistantToken now s p).messages ("streaming-" ++ mid)
      = msgLookup s.messages ("streaming-" ++ mid) := by
  have hsid : ("streaming-" ++ mid) ≠ ("streaming-" ++ p.messageId) :=
    string_append_right_ne hne
  by_cases hany : (s.messages.any
      (fun m => m.id == ("streaming-" ++ p.messageId))) = true
  · simp only [handleAssistantToken, h, msgLookup, hany, if_true]
    apply find?_updateFirst_other
    · intro m hm
      have hid : m.id = "streaming-" ++ p.messageId := by simpa using hm
      exact sbeq_of_ne (by rw [hid]; exact fun hc => hsid hc.symm)
    · intro m; rfl
  · simp only [Bool.not_eq_true] at hany
    simp only [handleAssistantToken, h, msgLookup, hany, Bool.false_eq_true, if_false]
    rw [List.find?_append]
    have hone : ∀ (x : Message), x.id = "streaming-" ++ p.messageId →
        (List.find? (fun m => m.id == ("streaming-" ++ mid)) [x]) = none := by
      intro x hx
      have : ¬ x.id = "streaming-" ++ mid := by
        rw [hx]; exact fun hc => hsid hc.symm
      simp [List.find?, sbeq_of_ne this]
    rw [hone _ rfl]
    simp

theorem takeToLast_append_match (mid : String)
    (es : List (Nat × AssistantTokenPayload)) (e : Nat × AssistantTokenPayload)
    (h : e.2.messageId = mid) :
    takeToLast mid (es ++ [e]) = es ++ [e] := by
  simp [takeToLast, List.dropWhile_cons, h]

theorem takeToLast_append_other (mid : String)
    (es : List (Nat × AssistantTokenPayload)) (e : Nat × AssistantTokenPayload)
    (h : ¬ e.2.messageId = mid) :
    takeToLast mid (es ++ [e]) = takeToLast mid es := by
  simp [takeToLast, List.dropWhile_cons, sbeq_of_ne h]

/-- After an all-ungrouped delivery starting from an empty shared buffer,
the pending message of any delivered message id holds the concatenation of
every delta delivered up to and including that id's last token — not just
its own deltas. -/
theorem deliverTokens_lookup_text (s0 : ChatState)
    (hc : s0.streamingContent = "")
    (evs : List (Nat × AssistantTokenPayload))
    (hug : ∀ e ∈ evs, e.2.groupId = none) (mid : String)
    (hmem : mid ∈ evs.map (fun e => e.2.messageId)) :
    ∃ m, msgLookup (deliverTokens s0 evs).messages ("streaming-" ++ mid)
           = some m ∧
         m.text = allDeltas (takeToLast mid evs) := by
  induction evs using List.reverseRecOn with
  | nil => simp at hmem
  | append_singleton es e ih =>
    have hug_es : ∀ x ∈ es, x.2.groupId = none :=
      fun x hx => hug x (List.mem_append_left _ hx)
    have hug_e : e.2.groupId = none :=
      hug e (List.mem_append_right _ (List.mem_singleton_self e))
    rw [deliverTokens_append_last]
    by_cases hid : e.2.messageId = mid
    · subst hid
      rcases handleAssistantToken_lookup_self e.1 (deliverTokens s0 es) e.2 hug_e
        with ⟨m, hm, htext⟩
      refine ⟨m, hm, ?_⟩
      rw [htext, deliverTokens_content s0 es hug_es, hc,
        takeToLast_append_match _ _ _ rfl, allDeltas_append_last]
      simp
    · rw [handleAssistantToken_lookup_other e.1 (deliverTokens s0 es) e.2 hug_e
        mid (fun hcc => hid hcc.symm)]
      have hmem_es : mid ∈ es.map (fun x => x.2.messageId) := by
        have hmem2 : mid ∈ es.map (fun x => x.2.messageId) ++ [e.2.messageId] := by
          simpa [List.map_append] using hmem
        rcases List.mem_append.mp hmem2 with h1 | h1
        · exact h1
        · have h2 : mid = e.2.messageId := by simpa using h1
          exact absurd h2.symm hid
      rcases ih hug_es hmem_es with ⟨m, hm, htext⟩
      exact ⟨m, hm, by rw [htext, takeToLast_append_other _ _ _ hid]⟩

/-- C10: ungrouped token accumulation uses one shared buffer, not a
per-message buffer.  After delivering any all-ungrouped token sequence from
a fresh streaming state, the shared buffer holds the concatenation of every
delta, and the pending message of each delivered message id holds the
concatenation of all deltas seen up to that id's last token — not only its
own deltas. -/
theorem C10_shared_streaming_buffer (s0 : ChatState)
    (hc : s0.streamingContent = "")
    (evs : List (Nat × AssistantTokenPayload))
    (hug : ∀ e ∈ evs, e.2.groupId = none) (mid : String)
    (hmem : mid ∈ evs.map (fun e => e.2.messageId)) :
    (deliverTokens s0 evs).streamingContent = allDeltas evs ∧
    ∃ m, msgLookup (deliverTokens s0 evs).messages ("streaming-" ++ mid)
           = some m ∧
         m.text = allDeltas (takeToLast mid evs) := by
  constructor
  · rw [deliverTokens_content s0 evs hug, hc]
    simp
  · exact deliverTokens_lookup_text s0 hc evs hug mid hmem

/-- Witness for C10: tokens m1:"a", m2:"b", m1:"c" leave the pending message
of m2 with text "ab", the concatenation of deltas of both ids. -/
theorem C10_shared_streaming_buffer_witness :
    emptyChatState.streamingContent = "" ∧
    (∀ e ∈ [((1 : Nat), (⟨"m1", "a", false, none⟩ : AssistantTokenPayload)),
            (2, ⟨"m2", "b", false, none⟩), (3, ⟨"m1", "c", false, none⟩)],
      e.2.groupId = none) ∧
    ("m2" : String) ∈ ([((1 : Nat), (⟨"m1", "a", false, none⟩ : AssistantTokenPayload)),
            (2, ⟨"m2", "b", false, none⟩), (3, ⟨"m1", "c", false, none⟩)].map
        (fun e => e.2.messageId)) ∧
    ((deliverTokens emptyChatState
        [(1, ⟨"m1", "a", false, none⟩), (2, ⟨"m2", "b", false, none⟩),
         (3, ⟨"m1", "c", false, none⟩)]).streamingContent
      = allDeltas [(1, ⟨"m1", "a", false, none⟩), (2, ⟨"m2", "b", false, none⟩),
         (3, ⟨"m1", "c", false, none⟩)] ∧
     ∃ m, msgLookup (deliverTokens emptyChatState
        [(1, ⟨"m1", "a", false, none⟩), (2, ⟨"m2", "b", false, none⟩),
         (3, ⟨"m1", "c", false, none⟩)]).messages ("streaming-" ++ "m2")
        = some m ∧
       m.text = allDeltas (takeToLast "m2"
        [(1, ⟨"m1", "a", false, none⟩), (2, ⟨"m2", "b", false, none⟩),
         (3, ⟨"m1", "c", false, none⟩)])) :=
  ⟨rfl, by decide, by decide,
    C10_shared_streaming_buffer emptyChatState rfl _ (by decide) "m2" (by decide)⟩

/-! ### Timeline projection (claim C4, ChatInput.vue lines 306-344)

The source builds one array by pushing messages, then
`Object.values(dataQueryGroups)`, then app events, and sorts it with the
comparator `a.timestamp - b.timestamp` via `Array.prototype.sort`, which is
stable (ECMAScript 2019); the stable ascending sort is modeled by
`List.mergeSort`, the stable merge sort of the standard library. -/

/-- The tagged union held in a timeline entry. -/
inductive TimelineData
  | message (m : Message)
  | dataQuery (g : DataQueryGroup)
  | appEvent (e : AppEventPayload)
deriving DecidableEq, Repr

/-- One projected timeline entry: the payload plus its sort timestamp. -/
structure TimelineItem where
  data : TimelineData
  timestamp : Nat
deriving DecidableEq, Repr

/-- The unsorted concatenation: messages, then group values in key insertion
order, then app events, each carrying its own timestamp. -/
def timelineItems (s : ChatState) : List TimelineItem :=
  s.messages.map (fun m => { data := .message m, timestamp := m.timestamp })
    ++ (s.dataQueryGroups.map (fun p => p.2)).map
        (fun g => { data := .dataQuery g, timestamp := g.timestamp })
    ++ s.appEvents.map (fun e => { data := .appEvent e.payload, timestamp := e.timestamp })

/-- The comparator: ascending by timestamp, ties broken by stability. -/
def timelineLE (a b : TimelineItem) : Bool :=
  a.timestamp ≤ b.timestamp

/-- The projected timeline: the stable ascending sort of the merged items. -/
def timeline (s : ChatState) : List TimelineItem :=
  (timelineItems s).mergeSort timelineLE

/-- C4: the projected timeline is always a permutation of the three source
collections merged, is sorted by timestamp, and — because the sort is
stable over the concatenation messages ++ groups ++ appEvents — a Message,
a StreamGroup and an AppEvent bearing identical timestamps appear in
exactly that order. -/
theorem C4_timeline_ordering (s : ChatState) (m : Message) (k : String)
    (g : DataQueryGroup) (e : AppEventWithTimestamp)
    (hmg : m.timestamp = g.timestamp) (hge : g.timestamp = e.timestamp)
    (hs : s.messages = [m]) (hg : s.dataQueryGroups = [(k, g)])
    (he : s.appEvents = [e]) :
    (timeline s).Perm (timelineItems s) ∧
    (timeline s).Pairwise (fun a b => timelineLE a b) ∧
    timeline s =
      [{ data := .message m, timestamp := m.timestamp },
       { data := .dataQuery g, timestamp := g.timestamp },
       { data := .appEvent e.payload, timestamp := e.timestamp }] := by
  refine ⟨List.mergeSort_perm _ _, ?_, ?_⟩
  · exact List.sorted_mergeSort
      (fun a b c hab hbc => by
        simp only [timelineLE, decide_eq_true_eq] at *
        omega)
      (fun a b => by
        simp only [timelineLE]
        by_cases h : a.timestamp ≤ b.timestamp
        · simp [h]
        · simp [h, Nat.le_of_not_le h])
      (timelineItems s)
  · have hitems : timelineItems s =
        [{ data := .message m, timestamp := m.timestamp },
         { data := .dataQuery g, timestamp := g.timestamp },
         { data := .appEvent e.payload, timestamp := e.timestamp }] := by
      simp [timelineItems, hs, hg, he]
    rw [timeline, hitems]
    apply List.mergeSort_of_sorted
    simp [List.pairwise_cons, timelineLE, hmg, hge]

/-- Sample message for the C4 witness. -/
def sampleMsg : Message :=
  { id := "m1", conversationId := "c", text := "hi", sender := .user,
    timestamp := 7, status := .sent }

/-- Sample data-query group for the C4 witness. -/
def sampleGroup : DataQueryGroup :=
  { groupId := "g1", result := none, streamingText := "t",
    isStreaming := false, quickAction := none, timestamp := 7 }

/-- Sample app event for the C4 witness. -/
def sampleEvent : AppEventWithTimestamp :=
  { payload := { eventType := "artifact_created", data := .generic 0 }, timestamp := 7 }

/-- Sample state for the C4 witness: one entry per collection, all at
timestamp 7. -/
def sampleState : ChatState :=
  { emptyChatState with
    messages := [sampleMsg],
    dataQueryGroups := [("g1", sampleGroup)],
    appEvents := [sampleEvent] }

/-- Witness for C4 at identical timestamps. -/
theorem C4_timeline_ordering_witness :
    sampleMsg.timestamp = sampleGroup.timestamp ∧
    sampleGroup.timestamp = sampleEvent.timestamp ∧
    sampleState.messages = [sampleMsg] ∧
    sampleState.dataQueryGroups = [("g1", sampleGroup)] ∧
    sampleState.appEvents = [sampleEvent] ∧
    ((timeline sampleState).Perm (timelineItems sampleState) ∧
     (timeline sampleState).Pairwise (fun a b => timelineLE a b) ∧
     timeline sampleState =
       [{ data := .message sampleMsg, timestamp := sampleMsg.timestamp },
        { data := .dataQuery sampleGroup, timestamp := sampleGroup.timestamp },
        { data := .appEvent sampleEvent.payload, timestamp := sampleEvent.timestamp }]) :=
  ⟨rfl, rfl, rfl, rfl, rfl,
    C4_timeline_ordering sampleState sampleMsg "g1" sampleGroup sampleEvent
      rfl rfl rfl rfl rfl⟩

/-! ### Finalization of an ungrouped message (claims C9, C6, C7)

`handleAssistantMessageFinished` (ChatInput.vue lines 1196-1252) and
`addMessageIfNotExists` (lines 362-370). -/

/-- `AssistantMessageFinishedPayload` (websocket/types.ts lines 79-83). -/
structure AssistantMessageFinishedPayload where
  messageId : String
  content : String
  groupId : Option String := none
deriving DecidableEq, Repr

/-- `addMessageIfNotExists`: push only when no message with the same id is
present. -/
def addMessageIfNotExists (l : List Message) (m : Message) : List Message :=
  if l.any (fun x => x.id == m.id) then l else l ++ [m]

/-- `handleAssistantMessageFinished`: a grouped finish only clears the
streaming flag of its group; an ungrouped finish replaces the pending
`streaming-<id>` message with the finalized one (or adds it, deduplicating
by id) and clears the shared streaming state. -/
def handleAssistantMessageFinished (now : Nat) (s : ChatState)
    (p : AssistantMessageFinishedPayload) : ChatState :=
  let s := { s with isTyping := false }
  match p.groupId with
  | some gid =>
    match recordGet s.dataQueryGroups gid with
    | some current =>
      let updated := { current with isStreaming := false }
      { s with dataQueryGroups := recordUpsert s.dataQueryGroups gid updated }
    | none => s
  | none =>
    let sid := "streaming-" ++ p.messageId
    let final : Message :=
      { id := p.messageId,
        conversationId := s.conversationId,
        text := p.content,
        sender := .bot,
        timestamp := now,
        status := .sent }
    let messages :=
      if s.messages.any (fun m => m.id == sid) then
        updateFirst (fun m => m.id == sid) (fun _ => final) s.messages
      else addMessageIfNotExists s.messages final
    { s with messages := messages, streamingMessageId := none, streamingContent := "" }

theorem any_of_countP_zero (l : List Message) (q : Message → Bool)
    (h : l.countP q = 0) : l.any q = false := by
  rw [List.any_eq_false]
  intro x hx
  exact (List.countP_eq_zero.mp h) x hx

theorem any_of_countP_one (l : List Message) (q : Message → Bool)
    (h : l.countP q = 1) : l.any q = true := by
  rw [List.any_eq_true]
  have hpos : 0 < l.countP q := by omega
  rcases List.countP_pos_iff.mp hpos with ⟨x, hx, hq⟩
  exact ⟨x, hx, hq⟩

/-- Replacing the first `pred` match by a `q`-satisfying element in a list
with no `q` elements yields exactly one `q` element. -/
theorem countP_updateFirst_fresh (l : List Message) (pred q : Message → Bool)
    (final : Message) (hq0 : l.countP q = 0) (hqf : q final = true)
    (hany : l.any pred = true) :
    (updateFirst pred (fun _ => final) l).countP q = 1 := by
  induction l with
  | nil => simp at hany
  | cons x xs ih =>
    cases hqx : q x with
    | true =>
      exfalso
      rw [List.countP_cons, hqx] at hq0
      simp at hq0
    | false =>
      have hxs0 : xs.countP q = 0 := by
        rw [List.countP_cons, hqx] at hq0
        simpa using hq0
      by_cases hpx : pred x = true
      · simp [updateFirst, hpx, List.countP_cons, hqf, hxs0]
      · simp only [Bool.not_eq_true] at hpx
        have hanyxs : xs.any pred = true := by
          rw [List.any_cons, hpx] at hany
          simpa using hany
        simp [updateFirst, hpx, List.countP_cons, hqx, ih hxs0 hanyxs]

/-- Replacing the first `pred` match by an element not satisfying `pred`,
in a list holding at most one `pred` element, leaves no `pred` element. -/
theorem any_updateFirst_gone (l : List Message) (pred : Message → Bool)
    (final : Message) (hle : l.countP pred ≤ 1) (hpf : pred final = false) :
    (updateFirst pred (fun _ => final) l).any pred = false := by
  induction l with
  | nil => simp [updateFirst]
  | cons x xs ih =>
    by_cases hpx : pred x = true
    · have hxs0 : xs.countP pred = 0 := by
        rw [List.countP_cons, hpx, if_pos rfl] at hle
        omega
      simp [updateFirst, hpx, List.any_cons, hpf, any_of_countP_zero xs pred hxs0]
    · simp only [Bool.not_eq_true] at hpx
      have hxsle : xs.countP pred ≤ 1 := by
        rw [List.countP_cons, hpx] at hle
        simpa using hle
      simp [updateFirst, hpx, List.any_cons, ih hxsle]

/-- An ungrouped finished event on a state that already holds the finalized
id and no pending `streaming-<id>` entry changes no message at all. -/
theorem handleFinished_noop (now : Nat) (s : ChatState)
    (p : AssistantMessageFinishedPayload) (hug : p.groupId = none)
    (hgone : (s.messages.any
        (fun m => m.id == "streaming-" ++ p.messageId)) = false)
    (hhave : (s.messages.any (fun m => m.id == p.messageId)) = true) :
    (handleAssistantMessageFinished now s p).messages = s.messages := by
  simp [handleAssistantMessageFinished, hug, hgone, addMessageIfNotExists, hhave]

/-- C9: an ungrouped finished event delivered twice for the same message id
leaves exactly one entry bearing that id; the second delivery does not
change the message list at all. -/
theorem C9_idempotent_finalize (s : ChatState)
    (p : AssistantMessageFinishedPayload) (now1 now2 : Nat)
    (hug : p.groupId = none)
    (hfresh : ∀ m ∈ s.messages, ¬ m.id = p.messageId)
    (hpend : s.messages.countP
        (fun m => m.id == "streaming-" ++ p.messageId) ≤ 1) :
    (handleAssistantMessageFinished now2
        (handleAssistantMessageFinished now1 s p) p).messages
      = (handleAssistantMessageFinished now1 s p).messages ∧
    ((handleAssistantMessageFinished now1 s p).messages.countP
        (fun m => m.id == p.messageId)) = 1 := by
  have hmidne : ¬ p.messageId = "streaming-" ++ p.messageId := by
    intro hc
    have hlen := congrArg String.length hc
    rw [String.length_append] at hlen
    have h10 : ("streaming-" : String).length = 10 := rfl
    omega
  have hcount0 : s.messages.countP (fun m => m.id == p.messageId) = 0 :=
    List.countP_eq_zero.mpr (fun m hm => by simp [sbeq_of_ne (hfresh m hm)])
  by_cases hany : (s.messages.any
      (fun m => m.id == "streaming-" ++ p.messageId)) = true
  · have hs1 : (handleAssistantMessageFinished now1 s p).messages
        = updateFirst (fun m => m.id == "streaming-" ++ p.messageId)
            (fun _ =>
              { id := p.messageId, conversationId := s.conversationId,
                text := p.content, sender := .bot, timestamp := now1,
                status := .sent }) s.messages := by
      simp [handleAssistantMessageFinished, hug, hany]
    have hone : ((handleAssistantMessageFinished now1 s p).messages.countP
        (fun m => m.id == p.messageId)) = 1 := by
      rw [hs1]
      exact countP_updateFirst_fresh _ _ _ _ hcount0 (by simp) hany
    have hgone : ((handleAssistantMessageFinished now1 s p).messages.any
        (fun m => m.id == "streaming-" ++ p.messageId)) = false := by
      rw [hs1]
      exact any_updateFirst_gone _ _ _ hpend (sbeq_of_ne hmidne)
    exact ⟨handleFinished_noop now2 _ p hug hgone (any_of_countP_one _ _ hone), hone⟩
  · simp only [Bool.not_eq_true] at hany
    have hanymid : (s.messages.any (fun m => m.id == p.messageId)) = false :=
      any_of_countP_zero _ _ hcount0
    have hs1 : (handleAssistantMessageFinished now1 s p).messages
        = s.messages ++
            [{ id := p.messageId, conversationId := s.conversationId,
               text := p.content, sender := .bot, timestamp := now1,
               status := .sent }] := by
      simp [handleAssistantMessageFinished, hug, hany, addMessageIfNotExists, hanymid]
    have hone : ((handleAssistantMessageFinished now1 s p).messages.countP
        (fun m => m.id == p.messageId)) = 1 := by
      rw [hs1, List.countP_append, hcount0]
      simp [List.countP_cons]
    have hgone : ((handleAssistantMessageFinished now1 s p).messages.any
        (fun m => m.id == "streaming-" ++ p.messageId)) = false := by
      rw [hs1, List.any_append, hany]
      simp [sbeq_of_ne hmidne]
    exact ⟨handleFinished_noop now2 _ p hug hgone (any_of_countP_one _ _ hone), hone⟩

/-- The pending streaming message used by the C9 witness. -/
def pendingMsg : Message :=
  { id := "streaming-" ++ "mx", conversationId := "c", text := "fu",
    sender := .bot, timestamp := 1, status := .streaming }

/-- A state holding only the pending message, for the C9 witness. -/
def pendingState : ChatState :=
  { emptyChatState with messages := [pendingMsg] }

/-- Witness for C9 at a state holding the pending message `streaming-mx`. -/
theorem C9_idempotent_finalize_witness :
    (⟨"mx", "full text", none⟩ : AssistantMessageFinishedPayload).groupId = none ∧
    (∀ m ∈ pendingState.messages, ¬ m.id = "mx") ∧
    (pendingState.messages.countP
        (fun m => m.id == "streaming-" ++ "mx") ≤ 1) ∧
    ((handleAssistantMessageFinished 3
        (handleAssistantMessageFinished 2 pendingState ⟨"mx", "full text", none⟩)
        ⟨"mx", "full text", none⟩).messages
      = (handleAssistantMessageFinished 2 pendingState
          ⟨"mx", "full text", none⟩).messages ∧
     ((handleAssistantMessageFinished 2 pendingState
          ⟨"mx", "full text", none⟩).messages.countP
        (fun m => m.id == "mx")) = 1) :=
  ⟨rfl, by decide, by decide,
    C9_idempotent_finalize pendingState ⟨"mx", "full text", none⟩ 2 3 rfl
      (by decide) (by decide)⟩

/-! ### Optimistic send (claim C7, ChatInput.vue lines 821-905)

`sendMessage` pushes the optimistic user message (status `sending`)
synchronously, then awaits the transport send; on resolution it sets the
status of the entry found by id to `sent`, and in the catch path to
`failed`.  The settled outcome is modeled by `ok`.  The source id is
`msg-<Date.now()>-<random>`; the model takes the generated id as an
argument. -/

/-- The effect of one `sendMessage` call on the message list, after its
transport send has settled with outcome `ok`. -/
def sendMessageOutcome (s : ChatState) (messageId text : String) (now : Nat)
    (ok : Bool) : ChatState :=
  let optimistic : Message :=
    { id := messageId, conversationId := s.conversationId, text := text,
      sender := .user, timestamp := now, status := .sending }
  let pushed := s.messages ++ [optimistic]
  let settled :=
    updateFirst (fun m => m.id == messageId)
      (fun m => { m with status := if ok then .sent else .failed }) pushed
  { s with messages := settled }

theorem updateFirst_append_last_match (l : List Message) (x : Message)
    (pred : Message → Bool) (f : Message → Message)
    (h : ∀ y ∈ l, pred y = false) (hx : pred x = true) :
    updateFirst pred f (l ++ [x]) = l ++ [f x] := by
  induction l with
  | nil => simp [updateFirst, hx]
  | cons y ys ih =>
    have hy : pred y = false := h y (List.mem_cons_self y ys)
    simp only [List.cons_append, updateFirst, hy, Bool.false_eq_true, if_false,
      List.cons.injEq, true_and]
    exact ih (fun z hz => h z (List.mem_cons_of_mem y hz))

/-- C7: a user message whose send fails server-side is kept as exactly one
entry with status `failed`, appended after the untouched prior entries, and
the projected timeline holds exactly one message entry with that id. -/
theorem C7_failed_send (s : ChatState) (messageId text : String) (now : Nat)
    (hfresh : ∀ m ∈ s.messages, ¬ m.id = messageId) :
    (sendMessageOutcome s messageId text now false).messages
      = s.messages ++
        [{ id := messageId, conversationId := s.conversationId, text := text,
           sender := .user, timestamp := now, status := .failed }] ∧
    ((sendMessageOutcome s messageId text now false).messages.countP
        (fun m => m.id == messageId)) = 1 ∧
    ((timeline (sendMessageOutcome s messageId text now false)).countP
        (fun t => match t.data with
          | .message m => m.id == messageId
          | _ => false)) = 1 := by
  have hmsgs : (sendMessageOutcome s messageId text now false).messages
      = s.messages ++
        [{ id := messageId, conversationId := s.conversationId, text := text,
           sender := .user, timestamp := now, status := .failed }] := by
    simp only [sendMessageOutcome]
    rw [updateFirst_append_last_match _ _ _ _
      (fun y hy => sbeq_of_ne (hfresh y hy)) (by simp)]
    rfl
  have hcount0 : s.messages.countP (fun m => m.id == messageId) = 0 :=
    List.countP_eq_zero.mpr (fun m hm => by simp [sbeq_of_ne (hfresh m hm)])
  have hcount : ((sendMessageOutcome s messageId text now false).messages.countP
      (fun m => m.id == messageId)) = 1 := by
    rw [hmsgs, List.countP_append, hcount0]
    simp [List.countP_cons]
  refine ⟨hmsgs, hcount, ?_⟩
  have hperm : (timeline (sendMessageOutcome s messageId text now false)).Perm
      (timelineItems (sendMessageOutcome s messageId text now false)) :=
    List.mergeSort_perm _ _
  rw [hperm.countP_eq]
  set s2 := sendMessageOutcome s messageId text now false with hs2
  have hqg : (((s2.dataQueryGroups.map (fun p => p.2)).map
      (fun g => ({ data := .dataQuery g, timestamp := g.timestamp } : TimelineItem))).countP
        (fun t => match t.data with
          | .message m => m.id == messageId
          | _ => false)) = 0 := by
    apply List.countP_eq_zero.mpr
    intro t ht
    rcases List.mem_map.mp ht with ⟨g, _, rfl⟩
    simp
  have hqe : ((s2.appEvents.map
      (fun e => ({ data := .appEvent e.payload, timestamp := e.timestamp } : TimelineItem))).countP
        (fun t => match t.data with
          | .message m => m.id == messageId
          | _ => false)) = 0 := by
    apply List.countP_eq_zero.mpr
    intro t ht
    rcases List.mem_map.mp ht with ⟨e, _, rfl⟩
    simp
  have hqm : ((s2.messages.map
      (fun m => ({ data := .message m, timestamp := m.timestamp } : TimelineItem))).countP
        (fun t => match t.data with
          | .message m => m.id == messageId
          | _ => false)) = 1 := by
    rw [List.countP_map]
    exact hcount
  rw [timelineItems, List.countP_append, List.countP_append, hqm, hqg, hqe]

/-- Witness for C7: one prior message, then a failed send of id `new1`. -/
theorem C7_failed_send_witness :
    (∀ m ∈ sampleState.messages, ¬ m.id = "new1") ∧
    ((sendMessageOutcome sampleState "new1" "hello" 9 false).messages
      = sampleState.messages ++
        [{ id := "new1", conversationId := sampleState.conversationId,
           text := "hello", sender := .user, timestamp := 9,
           status := .failed }] ∧
     ((sendMessageOutcome sampleState "new1" "hello" 9 false).messages.countP
        (fun m => m.id == "new1")) = 1 ∧
     ((timeline (sendMessageOutcome sampleState "new1" "hello" 9 false)).countP
        (fun t => match t.data with
          | .message m => m.id == "new1"
          | _ => false)) = 1) :=
  ⟨by decide, C7_failed_send sampleState "new1" "hello" 9 (by decide)⟩

/-! ### Conversation switching (claim C6, ChatInput.vue lines 921-945)

`handleSelectConversation` synchronously clears `messages`, `appEvents` and
`dataQueryGroups`, then awaits the new `init`.  Neither it nor
`handleInitAck` resets `streamingMessageId` or `streamingContent`, and no
inbound frame type carries a conversation id (websocket/types.ts lines
63-99), so the token handlers have nothing to check staleness against. -/

/-- The synchronous reset performed when switching the active conversation. -/
def handleSelectConversation (s : ChatState) : ChatState :=
  { s with messages := [], appEvents := [], dataQueryGroups := [] }

/-- Counterexample to C6 as stated: switching away from a state whose
shared streaming buffer holds "stale " does not discard the buffer, and a
late ungrouped token is applied to the freshly cleared conversation,
surfacing the abandoned text in its message list instead of being dropped. -/
theorem C6_counterexample :
    (handleSelectConversation
        { emptyChatState with streamingContent := "stale " }).streamingContent
      = "stale " ∧
    ((handleAssistantToken 5
        (handleSelectConversation
          { emptyChatState with streamingContent := "stale " })
        ⟨"m9", "delta", false, none⟩).messages.map (fun m => m.text))
      = ["stale delta"] :=
  ⟨rfl, by decide⟩

/-- C6 amended: switching the active conversation clears the three
collections but retains the streaming refs, and a late ungrouped token is
not detected or dropped — it is applied to the new conversation, seeding
its pending message with the abandoned buffer plus the stale delta. -/
theorem C6_switch_keeps_streaming_state (s : ChatState) (now : Nat)
    (p : AssistantTokenPayload) (hug : p.groupId = none) :
    (handleSelectConversation s).messages = [] ∧
    (handleSelectConversation s).appEvents = [] ∧
    (handleSelectConversation s).dataQueryGroups = [] ∧
    (handleSelectConversation s).streamingContent = s.streamingContent ∧
    (handleSelectConversation s).streamingMessageId = s.streamingMessageId ∧
    ((handleAssistantToken now (handleSelectConversation s) p).messages.map
        (fun m => m.text)) = [s.streamingContent ++ p.delta] := by
  refine ⟨rfl, rfl, rfl, rfl, rfl, ?_⟩
  simp [handleAssistantToken, hug, handleSelectConversation]

/-- Witness for C6 amended, at a state holding buffer "old" and a late
token with delta "new". -/
theorem C6_switch_keeps_streaming_state_witness :
    (⟨"mz", "new", false, none⟩ : AssistantTokenPayload).groupId = none ∧
    ((handleSelectConversation
        { emptyChatState with streamingContent := "old" }).messages = [] ∧
     (handleSelectConversation
        { emptyChatState with streamingContent := "old" }).appEvents = [] ∧
     (handleSelectConversation
        { emptyChatState with streamingContent := "old" }).dataQueryGroups = [] ∧
     (handleSelectConversation
        { emptyChatState with streamingContent := "old" }).streamingContent
        = ({ emptyChatState with streamingContent := "old" } : ChatState).streamingContent ∧
     (handleSelectConversation
        { emptyChatState with streamingContent := "old" }).streamingMessageId
        = ({ emptyChatState with streamingContent := "old" } : ChatState).streamingMessageId ∧
     ((handleAssistantToken 4
        (handleSelectConversation
          { emptyChatState with streamingContent := "old" })
        ⟨"mz", "new", false, none⟩).messages.map (fun m => m.text))
        = [({ emptyChatState with streamingContent := "old" } : ChatState).streamingContent
            ++ ("new" : String)]) :=
  ⟨rfl, C6_switch_keeps_streaming_state
    { emptyChatState with streamingContent := "old" } 4
    ⟨"mz", "new", false, none⟩ rfl⟩

/-! ### Transport preconditions (claim C8, chatSocket.ts lines 197-232)

`init` and `sendUserMessage` are declared `async`.  A JS `async` function
can never throw synchronously at the call site: a `throw` executed before
the first `await` is converted by the runtime into a returned,
already-rejected promise.  The model therefore distinguishes the delivery
shape of a failure explicitly. -/

/-- How the result of calling a JS `async` method surfaces to its caller. -/
inductive JsCallResult (α : Type)
  | syncThrow (message : String)
  | rejected (message : String)
  | resolvesWith (a : α)
deriving DecidableEq, Repr

/-- Whether a call outcome is a synchronous exception at the call site. -/
def JsCallResult.isSyncThrow : JsCallResult α → Bool
  | .syncThrow _ => true
  | _ => false

/-- JS truthiness of a possibly-undefined string: undefined and the empty
string are falsy. -/
def jsTruthyS : Option String → Bool
  | none => false
  | some s => !(s == "")

/-- `a || b` on possibly-undefined strings. -/
def jsStrOr (a b : Option String) : Option String :=
  if jsTruthyS a then a else b

/-- The fields of `ChatSocket` read and written by `init` and
`sendUserMessage`: the socket reference and its connected flag, the stored
credential and conversation id. -/
structure SocketState where
  socketExists : Bool
  socketConnected : Bool
  cxoneToken : Option String
  conversationId : Option String
deriving DecidableEq, Repr

/-- An outbound client frame `{type, payload}`. -/
structure ClientFrame where
  type : String
  payloadToken : Option String := none
  payloadConversationId : Option String := none
  payloadMessageId : Option String := none
  payloadContent : Option String := none
deriving DecidableEq, Repr

/-- `ChatSocket.init` (chatSocket.ts 197-207): the guard throws inside the
async body when the socket is absent or not connected — surfacing as an
already-rejected promise — otherwise it stores the credential and the
conversation id (`conversationId || null`) and emits the init frame. -/
def ChatSocket.init (s : SocketState) (cxoneToken : String)
    (conversationId : Option String) : JsCallResult (SocketState × ClientFrame) :=
  if !(s.socketExists && s.socketConnected) then
    .rejected "Socket not connected. Call connect() first."
  else
    let stored := jsStrOr conversationId none
    .resolvesWith
      ({ s with cxoneToken := some cxoneToken, conversationId := stored },
       { type := "init", payloadToken := some cxoneToken,
         payloadConversationId := conversationId })

/-- `ChatSocket.sendUserMessage` (chatSocket.ts 212-232): guards on the
connected socket and on an initialized (truthy) credential, then emits the
user_message frame; both guard failures surface as rejected promises. -/
def ChatSocket.sendUserMessage (s : SocketState) (messageId content : String) :
    JsCallResult (SocketState × ClientFrame) :=
  if !(s.socketExists && s.socketConnected) then
    .rejected "Socket not connected"
  else if !(jsTruthyS s.cxoneToken) then
    .rejected "Session not initialized. Call init() first."
  else
    .resolvesWith
      (s, { type := "user_message", payloadMessageId := some messageId,
            payloadContent := some content })

/-- A disconnected transport: no socket object, nothing stored. -/
def disconnectedSocket : SocketState :=
  { socketExists := false, socketConnected := false,
    cxoneToken := none, conversationId := none }

/-- Counterexample to C8 as stated: while disconnected, neither call throws
synchronously — both are `async` and return an already-rejected promise
carrying the precondition error. -/
theorem C8_counterexample :
    (ChatSocket.init disconnectedSocket "tok" none).isSyncThrow = false ∧
    (ChatSocket.sendUserMessage disconnectedSocket "m1" "hi").isSyncThrow = false ∧
    ChatSocket.init disconnectedSocket "tok" none
      = .rejected "Socket not connected. Call connect() first." ∧
    ChatSocket.sendUserMessage disconnectedSocket "m1" "hi"
      = .rejected "Socket not connected" :=
  ⟨rfl, rfl, rfl, rfl⟩

/-- C8 amended: every call to `init` or `sendUserMessage` made while the
transport is disconnected fails immediately — in the same turn, before any
frame is sent or state is mutated — by returning an already-rejected
promise carrying the precondition-violation error; it never proceeds
silently (the `async` declaration makes a synchronous throw impossible). -/
theorem C8_disconnected_rejects (s : SocketState) (tok : String)
    (cid : Option String) (messageId content : String)
    (h : (s.socketExists && s.socketConnected) = false) :
    ChatSocket.init s tok cid
      = .rejected "Socket not connected. Call connect() first." ∧
    ChatSocket.sendUserMessage s messageId content
      = .rejected "Socket not connected" := by
  constructor
  · simp [ChatSocket.init, h]
  · simp [ChatSocket.sendUserMessage, h]

/-- Witness for C8 amended at the disconnected socket. -/
theorem C8_disconnected_rejects_witness :
    (disconnectedSocket.socketExists && disconnectedSocket.socketConnected) = false ∧
    (ChatSocket.init disconnectedSocket "tok2" (some "c7")
      = .rejected "Socket not connected. Call connect() first." ∧
     ChatSocket.sendUserMessage disconnectedSocket "m2" "yo"
      = .rejected "Socket not connected") :=
  ⟨rfl, C8_disconnected_rejects disconnectedSocket "tok2" (some "c7") "m2" "yo" rfl⟩

/-! ### Bootstrap reconstruction (claim C3, ChatInput.vue lines 986-1112)

`handleInitAck` scans the historical message array once.  A tool-role entry
is parsed as JSON (`JSON.parse` is a host primitive, injected here as the
`parse` argument; `none` models a parse exception caught by the handler).
A parsed payload with a `structuredResult` opens a DataQueryGroup whose
descriptive text is the next assistant message before any user/tool
message; that assistant id is recorded in `skipMessageIds` and skipped by
the plain-message pass.  Draft / article payloads become app events
timestamped at the original message creation time.  All other non-skipped
messages map to SDK messages, deduplicated by id, last write wins. -/

/-- `role: 'user' | 'assistant' | 'system' | 'tool'`. -/
inductive Role
  | user
  | assistant
  | system
  | tool
deriving DecidableEq, Repr

/-- A historical backend message (websocket/types.ts lines 43-48);
`createdAt` as milliseconds. -/
structure BackendMessage where
  id : String
  role : Role
  content : String
  createdAt : Nat
deriving DecidableEq, Repr

/-- `InitAckPayload` (websocket/types.ts lines 53-61), flattened. -/
structure InitAckPayload where
  cxoneToken : String
  conversationId : String
  conversationTitle : String
  messages : List BackendMessage
deriving DecidableEq, Repr

/-- `backendMessageToSDK` (ChatInput.vue lines 347-359). -/
def backendMessageToSDK (convId : String) (m : BackendMessage) : Message :=
  { id := m.id, conversationId := convId, text := m.content,
    sender := if m.role = .assistant then .bot else .user,
    timestamp := m.createdAt, status := .sent }

/-- The inner scan for the descriptive text: the next assistant message
that follows before any other user or tool message (ChatInput.vue lines
1020-1034); system messages are stepped over. -/
def findDescription : List BackendMessage → Option BackendMessage
  | [] => none
  | m :: ms =>
    match m.role with
    | .assistant => some m
    | .user => none
    | .tool => none
    | .system => findDescription ms

/-- `structuredResult?.meta?.historyItemId` of a parsed tool payload. -/
def srHistoryItemId (tj : ToolJson) : Option String :=
  match tj.structuredResult with
  | some sr => sr.metaHistoryItemId
  | none => none

/-- The group key:
`structuredResult?.meta?.historyItemId || historyItemId || tool-<id>`
(ChatInput.vue lines 1016-1018); the last alternative is always truthy. -/
def toolGroupId (msgId : String) (tj : ToolJson) : String :=
  (jsStrOr (jsStrOr (srHistoryItemId tj) tj.historyItemId)
    (some ("tool-" ++ msgId))).getD ""

/-- The group reconstructed from a structured tool payload (ChatInput.vue
lines 1037-1057). -/
def reconstructGroup (m : BackendMessage) (tj : ToolJson) (desc : String)
    (gid : String) : DataQueryGroup :=
  { groupId := gid,
    result := some { toolName := "dataQuery_runQuery", result := tj },
    streamingText := desc,
    isStreaming := false,
    quickAction := some
      { label := "Use this data to prepare email draft",
        actionType := "quick_message",
        payloadGroupId := some gid,
        payloadToolName := some "dataQuery_runQuery",
        payloadHistoryItemId := jsStrOr (srHistoryItemId tj) tj.historyItemId,
        payloadSql := tj.sql },
    timestamp := m.createdAt }

/-- The accumulator of the single pass over the history. -/
structure InitAckAcc where
  sdkMessages : List Message
  groups : List (String × DataQueryGroup)
  events : List AppEventWithTimestamp
  skips : List String
deriving DecidableEq, Repr

/-- The single pass of `handleInitAck` over the backend messages; the
look-ahead for the group description walks the remaining suffix, exactly
as the source indexes forward from `i + 1`. -/
def processHistory (parse : String → Option ToolJson) (convId : String) :
    List BackendMessage → InitAckAcc → InitAckAcc
  | [], acc => acc
  | m :: rest, acc =>
    if m.role = .tool then
      match parse m.content with
      | none => processHistory parse convId rest acc
      | some tj =>
        if tj.structuredResult.isSome then
          let gid := toolGroupId m.id tj
          let acc2 :=
            match findDescription rest with
            | some a =>
              { acc with
                groups := recordUpsert acc.groups gid
                  (reconstructGroup m tj a.content gid),
                skips := acc.skips ++ [a.id] }
            | none =>
              { acc with
                groups := recordUpsert acc.groups gid
                  (reconstructGroup m tj "" gid) }
          processHistory parse convId rest acc2
        else if jsTruthyS tj.draftId then
          let ev : AppEventWithTimestamp :=
            { payload := { eventType := "email_draft_created",
                           data := .draftRef (tj.draftId.getD "") },
              timestamp := m.createdAt }
          processHistory parse convId rest { acc with events := acc.events ++ [ev] }
        else if jsTruthyS tj.articleId then
          let ev : AppEventWithTimestamp :=
            { payload := { eventType := "knowledge_article_created",
                           data := .articleRef (tj.articleId.getD "") },
              timestamp := m.createdAt }
          processHistory parse convId rest { acc with events := acc.events ++ [ev] }
        else
          processHistory parse convId rest acc
    else if acc.skips.contains m.id then
      processHistory parse convId rest acc
    else
      processHistory parse convId rest
        { acc with sdkMessages := acc.sdkMessages ++ [backendMessageToSDK convId m] }

/-- The `Map`-based dedupe at the end of `handleInitAck` (lines 1098-1104):
first insertion fixes the position, the last write wins for the value. -/
def dedupeById (msgs : List Message) : List Message :=
  (msgs.foldl (fun acc m => recordUpsert acc m.id m) []).map (fun p => p.2)

/-- `handleInitAck`: sets the conversation id, rebuilds the three
collections from the history, and touches nothing else — in particular the
streaming refs survive. -/
def handleInitAck (parse : String → Option ToolJson) (s : ChatState)
    (p : InitAckPayload) : ChatState :=
  let r := processHistory parse p.conversationId p.messages
    { sdkMessages := [], groups := [], events := [], skips := [] }
  { s with conversationId := p.conversationId,
           messages := dedupeById r.sdkMessages,
           dataQueryGroups := r.groups,
           appEvents := r.events }

theorem processHistory_user_block (parse : String → Option ToolJson)
    (convId : String) (l : List BackendMessage) (rest : List BackendMessage)
    (acc : InitAckAcc)
    (hu : ∀ m ∈ l, m.role = .user)
    (hs : ∀ m ∈ l, acc.skips.contains m.id = false) :
    processHistory parse convId (l ++ rest) acc
      = processHistory parse convId rest
          { acc with sdkMessages :=
              acc.sdkMessages ++ l.map (backendMessageToSDK convId) } := by
  induction l generalizing acc with
  | nil => simp
  | cons m ms ih =>
    have hm : m.role = .user := hu m (List.mem_cons_self m ms)
    have hsk : acc.skips.contains m.id = false := hs m (List.mem_cons_self m ms)
    have hnt : ¬ m.role = Role.tool := by rw [hm]; intro hc; cases hc
    have hskm : ¬ m.id ∈ acc.skips := by
      intro hc
      rw [List.contains_eq_any_beq] at hsk
      have := List.any_eq_false.mp hsk m.id hc
      simp at this
    rw [List.cons_append]
    show processHistory parse convId (m :: (ms ++ rest)) acc = _
    rw [show processHistory parse convId (m :: (ms ++ rest)) acc
        = processHistory parse convId (ms ++ rest)
            { acc with sdkMessages :=
                acc.sdkMessages ++ [backendMessageToSDK convId m] } by
      simp [processHistory, hnt, hsk, hskm]]
    rw [ih { acc with sdkMessages := acc.sdkMessages ++ [backendMessageToSDK convId m] }
      (fun x hx => hu x (List.mem_cons_of_mem m hx))
      (fun x hx => hs x (List.mem_cons_of_mem m hx))]
    simp

theorem mem_recordUpsert {m : List (String × α)} {k : String} {v : α}
    {q : String × α} (hq : q ∈ recordUpsert m k v) : q ∈ m ∨ q = (k, v) := by
  induction m with
  | nil =>
    right
    simpa [recordUpsert] using hq
  | cons p ps ih =>
    by_cases hp : (p.1 == k) = true
    · simp only [recordUpsert, hp, if_true] at hq
      rcases List.mem_cons.mp hq with h | h
      · right; exact h
      · left; exact List.mem_cons_of_mem p h
    · simp only [Bool.not_eq_true] at hp
      simp only [recordUpsert, hp, Bool.false_eq_true, if_false] at hq
      rcases List.mem_cons.mp hq with h | h
      · left; rw [h]; exact List.mem_cons_self p ps
      · rcases ih h with h2 | h2
        · left; exact List.mem_cons_of_mem p h2
        · right; exact h2

theorem mem_foldl_upsert {l : List Message} {init : List (String × Message)}
    {q : String × Message}
    (hq : q ∈ l.foldl (fun acc m => recordUpsert acc m.id m) init) :
    q ∈ init ∨ q.2 ∈ l := by
  induction l generalizing init with
  | nil => left; exact hq
  | cons x xs ih =>
    rw [List.foldl_cons] at hq
    rcases ih hq with h | h
    · rcases mem_recordUpsert h with h2 | h2
      · left; exact h2
      · right; rw [h2]; exact List.mem_cons_self x xs
    · right; exact List.mem_cons_of_mem x h

theorem mem_dedupeById {l : List Message} {m : Message}
    (hm : m ∈ dedupeById l) : m ∈ l := by
  rcases List.mem_map.mp hm with ⟨q, hq, rfl⟩
  rcases mem_foldl_upsert hq with h | h
  · cases h
  · exact h

/-- C3: reconstruction from a history holding a structured tool entry
immediately followed by an assistant entry (surrounded by plain user
messages) yields exactly one StreamGroup carrying that assistant content as
its descriptive text, a plain message list without that assistant entry,
and the assistant id recorded in the skip set. -/
theorem C3_bootstrap_group (parse : String → Option ToolJson) (s : ChatState)
    (cxt convId title : String) (pre post : List BackendMessage)
    (t a : BackendMessage) (tj : ToolJson)
    (hpre : ∀ m ∈ pre, m.role = .user)
    (hpost : ∀ m ∈ post, m.role = .user)
    (ht : t.role = .tool)
    (hparse : parse t.content = some tj)
    (hsr : tj.structuredResult.isSome = true)
    (ha : a.role = .assistant)
    (haid : ∀ m ∈ pre ++ post, ¬ m.id = a.id) :
    (∃ gr, (handleInitAck parse s
        ⟨cxt, convId, title, pre ++ t :: a :: post⟩).dataQueryGroups
          = [(toolGroupId t.id tj, gr)] ∧
        gr.streamingText = a.content ∧ gr.isStreaming = false) ∧
    (handleInitAck parse s ⟨cxt, convId, title, pre ++ t :: a :: post⟩).messages
      = dedupeById ((pre ++ post).map (backendMessageToSDK convId)) ∧
    (∀ m ∈ (handleInitAck parse s
        ⟨cxt, convId, title, pre ++ t :: a :: post⟩).messages, ¬ m.id = a.id) ∧
    (processHistory parse convId (pre ++ t :: a :: post)
        { sdkMessages := [], groups := [], events := [], skips := [] }).skips
      = [a.id] := by
  have hrun : processHistory parse convId (pre ++ t :: a :: post)
      { sdkMessages := [], groups := [], events := [], skips := [] }
      = { sdkMessages := pre.map (backendMessageToSDK convId)
            ++ post.map (backendMessageToSDK convId),
          groups := [(toolGroupId t.id tj,
            reconstructGroup t tj a.content (toolGroupId t.id tj))],
          events := [],
          skips := [a.id] } := by
    rw [processHistory_user_block parse convId pre (t :: a :: post)
      { sdkMessages := [], groups := [], events := [], skips := [] }
      hpre (fun m _ => rfl)]
    rw [show processHistory parse convId (t :: a :: post)
        { sdkMessages := [] ++ pre.map (backendMessageToSDK convId),
          groups := [], events := [], skips := [] }
        = processHistory parse convId (a :: post)
            { sdkMessages := pre.map (backendMessageToSDK convId),
              groups := [(toolGroupId t.id tj,
                reconstructGroup t tj a.content (toolGroupId t.id tj))],
              events := [], skips := [a.id] } by
      simp [processHistory, ht, hparse, hsr, findDescription, ha, recordUpsert]]
    rw [show processHistory parse convId (a :: post)
        { sdkMessages := pre.map (backendMessageToSDK convId),
          groups := [(toolGroupId t.id tj,
            reconstructGroup t tj a.content (toolGroupId t.id tj))],
          events := [], skips := [a.id] }
        = processHistory parse convId post
            { sdkMessages := pre.map (backendMessageToSDK convId),
              groups := [(toolGroupId t.id tj,
                reconstructGroup t tj a.content (toolGroupId t.id tj))],
              events := [], skips := [a.id] } by
      have hna : ¬ a.role = Role.tool := by rw [ha]; intro hc; cases hc
      simp [processHistory, hna]]
    have husers := processHistory_user_block parse convId post []
      { sdkMessages := pre.map (backendMessageToSDK convId),
        groups := [(toolGroupId t.id tj,
          reconstructGroup t tj a.content (toolGroupId t.id tj))],
        events := [], skips := [a.id] }
      hpost (fun m hm => by
        have hne : ¬ m.id = a.id := haid m (List.mem_append_right pre hm)
        simp [List.contains_cons]
        exact hne)
    rw [List.append_nil] at husers
    rw [husers]
    simp [processHistory]
  refine ⟨⟨reconstructGroup t tj a.content (toolGroupId t.id tj), ?_, rfl, rfl⟩,
    ?_, ?_, ?_⟩
  · simp [handleInitAck, hrun]
  · simp [handleInitAck, hrun, List.map_append]
  · intro m hm
    have hm2 : m ∈ dedupeById (pre.map (backendMessageToSDK convId)
        ++ post.map (backendMessageToSDK convId)) := by
      simpa [handleInitAck, hrun] using hm
    have hm3 := mem_dedupeById hm2
    rcases List.mem_append.mp hm3 with h | h
    · rcases List.mem_map.mp h with ⟨x, hx, rfl⟩
      exact haid x (List.mem_append_left post hx)
    · rcases List.mem_map.mp h with ⟨x, hx, rfl⟩
      exact haid x (List.mem_append_right pre hx)
  · rw [hrun]

/-- A parsed tool payload carrying a structured result, for the C3 witness. -/
def sampleToolJson : ToolJson :=
  { structuredResult := some { metaHistoryItemId := some "hist1" },
    historyItemId := none, draftId := none, articleId := none,
    sql := some "SELECT 1" }

/-- The injected JSON parser for the C3 witness: only the fixed tool
content parses. -/
def sampleParse : String → Option ToolJson :=
  fun c => if c = "TOOLJSON" then some sampleToolJson else none

/-- History entries for the C3 witness. -/
def sampleUser1 : BackendMessage :=
  { id := "u1", role := .user, content := "q1", createdAt := 1 }

/-- The structured tool entry of the C3 witness history. -/
def sampleTool : BackendMessage :=
  { id := "t1", role := .tool, content := "TOOLJSON", createdAt := 2 }

/-- The assistant description following the tool entry. -/
def sampleAssistant : BackendMessage :=
  { id := "a1", role := .assistant, content := "Here are the results", createdAt := 3 }

/-- A trailing user entry for the C3 witness history. -/
def sampleUser2 : BackendMessage :=
  { id := "u2", role := .user, content := "q2", createdAt := 4 }

/-- Witness for C3 at the four-entry history u1, t1, a1, u2. -/
theorem C3_bootstrap_group_witness :
    (∀ m ∈ [sampleUser1], m.role = Role.user) ∧
    (∀ m ∈ [sampleUser2], m.role = Role.user) ∧
    sampleTool.role = Role.tool ∧
    sampleParse sampleTool.content = some sampleToolJson ∧
    sampleToolJson.structuredResult.isSome = true ∧
    sampleAssistant.role = Role.assistant ∧
    (∀ m ∈ [sampleUser1] ++ [sampleUser2], ¬ m.id = sampleAssistant.id) ∧
    ((∃ gr, (handleInitAck sampleParse emptyChatState
        ⟨"tok", "conv9", "Title",
          [sampleUser1] ++ sampleTool :: sampleAssistant :: [sampleUser2]⟩).dataQueryGroups
          = [(toolGroupId sampleTool.id sampleToolJson, gr)] ∧
        gr.streamingText = sampleAssistant.content ∧ gr.isStreaming = false) ∧
     (handleInitAck sampleParse emptyChatState
        ⟨"tok", "conv9", "Title",
          [sampleUser1] ++ sampleTool :: sampleAssistant :: [sampleUser2]⟩).messages
       = dedupeById (([sampleUser1] ++ [sampleUser2]).map
          (backendMessageToSDK "conv9")) ∧
     (∀ m ∈ (handleInitAck sampleParse emptyChatState
        ⟨"tok", "conv9", "Title",
          [sampleUser1] ++ sampleTool :: sampleAssistant :: [sampleUser2]⟩).messages,
        ¬ m.id = sampleAssistant.id) ∧
     (processHistory sampleParse "conv9"
        ([sampleUser1] ++ sampleTool :: sampleAssistant :: [sampleUser2])
        { sdkMessages := [], groups := [], events := [], skips := [] }).skips
       = [sampleAssistant.id]) :=
  ⟨by decide, by decide, rfl, by decide, rfl, rfl, by decide,
    C3_bootstrap_group sampleParse emptyChatState "tok" "conv9" "Title"
      [sampleUser1] [sampleUser2] sampleTool sampleAssistant sampleToolJson
      (by decide) (by decide) rfl (by decide) rfl rfl (by decide)⟩

/-! ### Output-stack reconstruction (claim C5, ChatInput.vue lines 432-604)

`processOutputStack` receives an array of heterogeneous output items,
groups them by `item.data._cognigy._messageId` (consecutive id-less items
share synthesized `no-id-<n>` keys), combines each group's text, filters
thinking tags, folds in quick replies, and emits at most one message per
group.  `Date.now()` and `Math.random()` of the generated ids are taken as
arguments. -/

/-- A JS value that may be a string, an array of strings, null or
undefined — the shapes `item.text` and `item.data.text` take. -/
inductive JsText
  | undef
  | null
  | str (s : String)
  | arr (l : List String)
deriving DecidableEq, Repr

/-- One raw quick reply inside `_quickReplies.quickReplies`. -/
structure QuickReplyIn where
  id : Option String
  title : Option String
  imageUrl : Option String
  imageAltText : Option String
  contentType : Option String
  payload : Option String
deriving DecidableEq, Repr

/-- The `_quickReplies` object: optional text plus the reply array. -/
structure QuickRepliesData where
  text : Option String
  quickReplies : Option (List QuickReplyIn)
deriving DecidableEq, Repr

/-- One output-stack item, flattened to the paths the source probes:
`item.text`, `item.data.text`, `item.data.type`,
`item.data._cognigy._messageId`, and the three quick-replies locations
probed in this order: `item.data._data._cognigy._default._quickReplies`,
`item.data._cognigy._default._quickReplies`,
`item._data._cognigy._default._quickReplies`. -/
structure OutputItem where
  text : JsText
  dataText : JsText
  dataType : Option String
  messageId : Option String
  qrData1 : Option QuickRepliesData
  qrData2 : Option QuickRepliesData
  qrData3 : Option QuickRepliesData
deriving DecidableEq, Repr

/-- Text extraction for one item (lines 474-493): `item.text || ""`, null
handled, arrays joined, falling back to `item.data.text` (array joined or
truthy string). -/
def itemOwnText (it : OutputItem) : String :=
  let t0 := match it.text with
    | .str s => s
    | _ => ""
  let t1 := match it.text with
    | .arr l => String.join l
    | _ => t0
  if t1 = "" then
    match it.dataText with
    | .arr l => String.join l
    | .str s => if s = "" then t1 else s
    | _ => t1
  else t1

/-- `item.data?._data?._cognigy?._default?._quickReplies ||
item.data?._cognigy?._default?._quickReplies ||
item._data?._cognigy?._default?._quickReplies` (lines 499-502). -/
def qrDataOf (it : OutputItem) : Option QuickRepliesData :=
  match it.qrData1 with
  | some q => some q
  | none =>
    match it.qrData2 with
    | some q => some q
    | none => it.qrData3

/-- Normalization of one quick reply (lines 513-520): missing id is
synthesized, `title || ""`, `contentType || "postback"`,
`payload || title || ""`. -/
def mapQuickReply (synthId : String) (qr : QuickReplyIn) : QuickReply :=
  { id := qr.id.getD synthId,
    title := (jsStrOr qr.title (some "")).getD "",
    imageUrl := qr.imageUrl,
    imageAltText := qr.imageAltText,
    contentType := (jsStrOr qr.contentType (some "postback")).getD "",
    payload := (jsStrOr (jsStrOr qr.payload qr.title) (some "")).getD "" }

/-- The running state of the first pass over one group (lines 468-470). -/
structure GroupAcc where
  combinedText : String
  quickReplies : Option (List QuickReply)
  hasContent : Bool
deriving DecidableEq, Repr

/-- One step of the first pass (lines 474-536): promote quick-reply text
when the item has none of its own, extract the reply array, and append the
trimmed text to the group's combined text separated by a newline. -/
def processItem (synthId : String) (acc : GroupAcc) (it : OutputItem) : GroupAcc :=
  let text0 := itemOwnText it
  let qrd := qrDataOf it
  let isQRItem := it.dataType = some "quickReplies"
  let text :=
    if text0 = "" then
      match qrd with
      | some q =>
        match q.text with
        | some qt => if qt = "" then text0 else qt
        | none => text0
      | none => text0
    else text0
  let qrs :=
    if isQRItem ∨ qrd.isSome then
      match qrd with
      | some q =>
        match q.quickReplies with
        | some list => some (list.map (mapQuickReply synthId))
        | none => acc.quickReplies
      | none => acc.quickReplies
    else acc.quickReplies
  if text ≠ "" ∧ jsTrimStr text ≠ "" then
    if acc.combinedText ≠ "" then
      { combinedText := acc.combinedText ++ "\n" ++ jsTrimStr text,
        quickReplies := qrs, hasContent := true }
    else
      { combinedText := jsTrimStr text, quickReplies := qrs, hasContent := true }
  else
    { acc with quickReplies := qrs }

/-- The scan for the first truthy quick-replies text in the group
(lines 550-569). -/
def findFirstQrText : List OutputItem → Option String
  | [] => none
  | it :: rest =>
    match qrDataOf it with
    | some q =>
      match q.text with
      | some qt => if qt = "" then findFirstQrText rest else some qt
      | none => findFirstQrText rest
    | none => findFirstQrText rest

/-- The whole per-group pipeline (lines 467-600): first pass, thinking-tag
filtering, `hasContent` re-check, quick-reply text fold-in, then at most
one message. -/
def buildGroupMessage (synthId botNonce : String) (now : Nat) (convId : String)
    (key : String) (items : List OutputItem) : Option Message :=
  let acc := items.foldl (processItem synthId)
    { combinedText := "", quickReplies := none, hasContent := false }
  let combined := filterThinkingTags acc.combinedText
  let hasContent :=
    if combined = "" ∨ jsTrimStr combined = "" then false else acc.hasContent
  let step2 :=
    match acc.quickReplies with
    | some _ =>
      match findFirstQrText items with
      | some qt =>
        let qrt := filterThinkingTags qt
        if hasContent ∧ ¬ jsTrimStr combined = "" then
          (combined ++ "\n\n" ++ qrt, hasContent)
        else (qrt, true)
      | none => (combined, hasContent)
    | none => (combined, hasContent)
  let msgId := "bot-" ++ (if key.startsWith "no-id" then toString now else key)
      ++ "-" ++ toString now ++ "-" ++ botNonce
  if step2.2 ∧ ¬ jsTrimStr step2.1 = "" then
    some { id := msgId, conversationId := convId, text := jsTrimStr step2.1,
           sender := .bot, timestamp := now, status := .sent,
           isHtml := some false, quickReplies := acc.quickReplies }
  else
    match acc.quickReplies with
    | some l =>
      if l.length > 0 then
        some { id := msgId, conversationId := convId, text := "",
               sender := .bot, timestamp := now, status := .sent,
               isHtml := some false, quickReplies := acc.quickReplies }
      else none
    | none => none

/-- Append one item to the items of key `k` (the `push` on the array held
by a `Map` entry). -/
def appendAt (groups : List (String × List OutputItem)) (k : String)
    (it : OutputItem) : List (String × List OutputItem) :=
  groups.map (fun p => if p.1 == k then (p.1, p.2 ++ [it]) else p)

/-- The grouping step (lines 441-462): a truthy message id joins or opens
its keyed group; an id-less item joins the last group when that group is a
synthesized `no-id-` group, otherwise opens a fresh `no-id-<counter>` one. -/
def addToGroups (st : List (String × List OutputItem) × Nat) (it : OutputItem) :
    List (String × List OutputItem) × Nat :=
  let groups := st.1
  let counter := st.2
  if jsTruthyS it.messageId then
    let mid := it.messageId.getD ""
    if groups.any (fun p => p.1 == mid) then (appendAt groups mid it, counter)
    else (groups ++ [(mid, [it])], counter)
  else
    match groups.getLast? with
    | some last =>
      if last.1.startsWith "no-id-" then (appendAt groups last.1 it, counter)
      else (groups ++ [("no-id-" ++ toString counter, [it])], counter + 1)
    | none => (groups ++ [("no-id-" ++ toString counter, [it])], counter + 1)

/-- `processOutputStack` (lines 432-604): group, then emit the per-group
messages in group insertion order. -/
def processOutputStack (synthId botNonce : String) (now : Nat) (convId : String)
    (stack : List OutputItem) : List Message :=
  let groups := (stack.foldl addToGroups ([], 0)).1
  groups.foldl (fun msgs kv =>
    match buildGroupMessage synthId botNonce now convId kv.1 kv.2 with
    | some m => msgs ++ [m]
    | none => msgs) []

/-! ### Strings untouched by collapsing and trimming (used for claim C5) -/

theorem string_mk_data (s : String) : String.mk s.data = s := by
  cases s
  rfl

theorem string_eq_empty_of_data_nil {s : String} (h : s.data = []) : s = "" :=
  String.ext h

theorem data_ne_nil_of_ne_empty {s : String} (h : ¬ s = "") : s.data ≠ [] :=
  fun hc => h (string_eq_empty_of_data_nil hc)

theorem append_ne_empty_left (a b : String) (ha : ¬ a = "") : ¬ (a ++ b) = "" := by
  intro hc
  have hd := congrArg String.data hc
  rw [String.data_append] at hd
  exact data_ne_nil_of_ne_empty ha (List.append_eq_nil.mp hd).1

theorem collapseWs_spaceless (l : List Char)
    (h : ∀ c ∈ l, isJsSpace c = false) : collapseWs l = l := by
  induction l with
  | nil => rfl
  | cons c cs ih =>
    cases cs with
    | nil => simp [collapseWs, h c (List.mem_cons_self c [])]
    | cons c2 cs2 =>
      have hc : isJsSpace c = false := h c (List.mem_cons_self c _)
      have hrest := ih (fun x hx => h x (List.mem_cons_of_mem c hx))
      simp [collapseWs, hc, hrest]

theorem dropWhile_spaceless_head (l r : List Char) (hl : l ≠ [])
    (h : ∀ c ∈ l, isJsSpace c = false) :
    (l ++ r).dropWhile isJsSpace = l ++ r := by
  cases l with
  | nil => exact absurd rfl hl
  | cons c cs =>
    have hc : isJsSpace c = false := h c (List.mem_cons_self c cs)
    simp [List.dropWhile_cons, hc]

theorem dropWhile_spaceless (l : List Char)
    (h : ∀ c ∈ l, isJsSpace c = false) : l.dropWhile isJsSpace = l := by
  cases l with
  | nil => rfl
  | cons c cs => simp [List.dropWhile_cons, h c (List.mem_cons_self c cs)]

theorem jsTrim_spaceless (l : List Char)
    (h : ∀ c ∈ l, isJsSpace c = false) : jsTrim l = l := by
  unfold jsTrim
  rw [dropWhile_spaceless l h,
    dropWhile_spaceless l.reverse (fun c hc => h c (List.mem_reverse.mp hc)),
    List.reverse_reverse]

theorem jsTrimStr_spaceless (s : String)
    (h : ∀ c ∈ s.data, isJsSpace c = false) : jsTrimStr s = s := by
  unfold jsTrimStr
  rw [jsTrim_spaceless s.data h, string_mk_data]

/-- A tag-free, whitespace-free string passes the whole filter unchanged. -/
theorem filterThinkingTags_clean (s : String)
    (ho : containsOpen s.data = false) (hc : containsClose s.data = false)
    (hs : ∀ c ∈ s.data, isJsSpace c = false) :
    filterThinkingTags s = s := by
  rw [filterThinkingTags_no_tags s ho hc, collapseWs_spaceless s.data hs,
    jsTrim_spaceless s.data hs, string_mk_data]

/-- Trimming does not touch a separator-joined pair of nonempty
whitespace-free strings. -/
theorem jsTrimStr_joined (a sep b : String) (ha : ¬ a = "") (hb : ¬ b = "")
    (hsa : ∀ c ∈ a.data, isJsSpace c = false)
    (hsb : ∀ c ∈ b.data, isJsSpace c = false) :
    jsTrimStr (a ++ sep ++ b) = a ++ sep ++ b := by
  unfold jsTrimStr jsTrim
  have hdata : (a ++ sep ++ b).data = a.data ++ (sep.data ++ b.data) := by
    rw [String.data_append, String.data_append, List.append_assoc]
  rw [hdata]
  rw [dropWhile_spaceless_head a.data (sep.data ++ b.data)
    (data_ne_nil_of_ne_empty ha) hsa]
  have hrev : (a.data ++ (sep.data ++ b.data)).reverse
      = b.data.reverse ++ (sep.data.reverse ++ a.data.reverse) := by
    rw [List.reverse_append, List.reverse_append, List.append_assoc]
  rw [hrev]
  rw [dropWhile_spaceless_head b.data.reverse (sep.data.reverse ++ a.data.reverse)
    (fun hcc => data_ne_nil_of_ne_empty hb (by simpa using hcc))
    (fun c hcc => hsb c (List.mem_reverse.mp hcc))]
  rw [← hrev, List.reverse_reverse, ← hdata, string_mk_data]

/-- The single quick reply of the C5 counterexample. -/
def cexReply : QuickReplyIn :=
  { id := some "1", title := some "Yes", imageUrl := none,
    imageAltText := none, contentType := some "postback", payload := some "yes" }

/-- The quick-replies payload of the C5 counterexample. -/
def cexQR : QuickRepliesData :=
  { text := some "Pick one", quickReplies := some [cexReply] }

/-- A quick-replies output item carrying no text of its own. -/
def cexItem : OutputItem :=
  { text := .undef, dataText := .undef, dataType := some "quickReplies",
    messageId := some "m1", qrData1 := none, qrData2 := some cexQR,
    qrData3 := none }

/-- Counterexample to C5 as stated: for a group whose only text is the
quick-reply text, that text does not become the message body — the body is
the text twice, because the first pass already promoted the quick-reply
text into the combined text and the fold-in then appends it again. -/
theorem C5_counterexample :
    ((processOutputStack "syn" "r1" 0 "conv" [cexItem]).map (fun m => m.text))
      = ["Pick one\n\nPick one"] ∧
    ¬ ("Pick one\n\nPick one" : String) = "Pick one" :=
  ⟨by decide, by decide⟩

theorem processOutputStack_single (synthId botNonce : String) (now : Nat)
    (convId : String) (it : OutputItem) (h : jsTruthyS it.messageId = true) :
    processOutputStack synthId botNonce now convId [it]
      = (match buildGroupMessage synthId botNonce now convId
            (it.messageId.getD "") [it] with
         | some m => [m]
         | none => []) := by
  cases hb : buildGroupMessage synthId botNonce now convId
      (it.messageId.getD "") [it] with
  | none => simp [processOutputStack, addToGroups, h, hb]
  | some m => simp [processOutputStack, addToGroups, h, hb]

/-- C5 amended: for a single-item group with a truthy message id whose
quick-reply payload carries a reply array and (filter-invariant, nonempty)
text, (1) when the item yields no text of its own the message body is the
quick-reply text twice separated by a blank line — the promotion in the
first pass plus the fold-in; (2) when the item has its own text the
quick-reply text is appended exactly once after it; (3) a group yielding no
text and no quick-reply data produces no message at all. -/
theorem C5_quick_reply_policy :
    (∀ (synthId botNonce : String) (now : Nat) (convId mid qt : String)
       (it : OutputItem) (q : QuickRepliesData) (l : List QuickReplyIn),
       it.messageId = some mid → ¬ mid = "" →
       itemOwnText it = "" →
       qrDataOf it = some q → q.text = some qt → q.quickReplies = some l →
       containsOpen qt.data = false → containsClose qt.data = false →
       (∀ c ∈ qt.data, isJsSpace c = false) → ¬ qt = "" →
       (processOutputStack synthId botNonce now convId [it]).map
           (fun m => m.text)
         = [qt ++ "\n\n" ++ qt]) ∧
    (∀ (synthId botNonce : String) (now : Nat) (convId mid qt ot : String)
       (it : OutputItem) (q : QuickRepliesData) (l : List QuickReplyIn),
       it.messageId = some mid → ¬ mid = "" →
       itemOwnText it = ot → ¬ ot = "" →
       containsOpen ot.data = false → containsClose ot.data = false →
       (∀ c ∈ ot.data, isJsSpace c = false) →
       qrDataOf it = some q → q.text = some qt → q.quickReplies = some l →
       containsOpen qt.data = false → containsClose qt.data = false →
       (∀ c ∈ qt.data, isJsSpace c = false) → ¬ qt = "" →
       (processOutputStack synthId botNonce now convId [it]).map
           (fun m => m.text)
         = [ot ++ "\n\n" ++ qt]) ∧
    (∀ (synthId botNonce : String) (now : Nat) (convId mid : String)
       (it : OutputItem),
       it.messageId = some mid → ¬ mid = "" →
       itemOwnText it = "" → qrDataOf it = none →
       processOutputStack synthId botNonce now convId [it] = []) := by
  refine ⟨?_, ?_, ?_⟩
  · intro synthId botNonce now convId mid qt it q l hmid hmidne hown hqrd hqt
      hqrs hop hcl hsp hqtne
    have htruthy : jsTruthyS it.messageId = true := by
      rw [hmid]
      simp [jsTruthyS, sbeq_of_ne hmidne]
    have htq : jsTrimStr qt = qt := jsTrimStr_spaceless qt hsp
    have hfq : filterThinkingTags qt = qt := filterThinkingTags_clean qt hop hcl hsp
    have hacc : List.foldl (processItem synthId)
        { combinedText := "", quickReplies := none, hasContent := false } [it]
        = { combinedText := qt,
            quickReplies := some (l.map (mapQuickReply synthId)),
            hasContent := true } := by
      simp [processItem, hown, hqrd, hqt, hqrs, htq, hqtne]
    have hfind : findFirstQrText [it] = some qt := by
      simp [findFirstQrText, hqrd, hqt, hqtne]
    have hjoined : jsTrimStr (qt ++ "\n\n" ++ qt) = qt ++ "\n\n" ++ qt :=
      jsTrimStr_joined qt "\n\n" qt hqtne hqtne hsp hsp
    have hne2 : ¬ (qt ++ "\n\n" ++ qt) = "" :=
      append_ne_empty_left (qt ++ "\n\n") qt
        (append_ne_empty_left qt "\n\n" hqtne)
    rw [processOutputStack_single synthId botNonce now convId it htruthy]
    rw [show buildGroupMessage synthId botNonce now convId
        (it.messageId.getD "") [it]
        = some { id := "bot-" ++ (if (it.messageId.getD "").startsWith "no-id"
                    then toString now else it.messageId.getD "")
                  ++ "-" ++ toString now ++ "-" ++ botNonce,
                 conversationId := convId, text := qt ++ "\n\n" ++ qt,
                 sender := .bot, timestamp := now, status := .sent,
                 isHtml := some false,
                 quickReplies := some (l.map (mapQuickReply synthId)) } by
      simp [buildGroupMessage, hacc, hfq, htq, hfind, hqtne, hjoined, hne2]]
    simp
  · intro synthId botNonce now convId mid qt ot it q l hmid hmidne hown hotne
      hoop hocl hosp hqrd hqt hqrs hop hcl hsp hqtne
    have htruthy : jsTruthyS it.messageId = true := by
      rw [hmid]
      simp [jsTruthyS, sbeq_of_ne hmidne]
    have hto : jsTrimStr ot = ot := jsTrimStr_spaceless ot hosp
    have hfo : filterThinkingTags ot = ot := filterThinkingTags_clean ot hoop hocl hosp
    have hfq : filterThinkingTags qt = qt := filterThinkingTags_clean qt hop hcl hsp
    have hacc : List.foldl (processItem synthId)
        { combinedText := "", quickReplies := none, hasContent := false } [it]
        = { combinedText := ot,
            quickReplies := some (l.map (mapQuickReply synthId)),
            hasContent := true } := by
      simp [processItem, hown, hqrd, hqt, hqrs, hto, hotne]
    have hfind : findFirstQrText [it] = some qt := by
      simp [findFirstQrText, hqrd, hqt, hqtne]
    have hjoined : jsTrimStr (ot ++ "\n\n" ++ qt) = ot ++ "\n\n" ++ qt :=
      jsTrimStr_joined ot "\n\n" qt hotne hqtne hosp hsp
    have hne2 : ¬ (ot ++ "\n\n" ++ qt) = "" :=
      append_ne_empty_left (ot ++ "\n\n") qt
        (append_ne_empty_left ot "\n\n" hotne)
    rw [processOutputStack_single synthId botNonce now convId it htruthy]
    rw [show buildGroupMessage synthId botNonce now convId
        (it.messageId.getD "") [it]
        = some { id := "bot-" ++ (if (it.messageId.getD "").startsWith "no-id"
                    then toString now else it.messageId.getD "")
                  ++ "-" ++ toString now ++ "-" ++ botNonce,
                 conversationId := convId, text := ot ++ "\n\n" ++ qt,
                 sender := .bot, timestamp := now, status := .sent,
                 isHtml := some false,
                 quickReplies := some (l.map (mapQuickReply synthId)) } by
      simp [buildGroupMessage, hacc, hfo, hto, hotne, hfind, hfq, hqtne, hjoined, hne2]]
    simp
  · intro synthId botNonce now convId mid it hmid hmidne hown hqrd
    have htruthy : jsTruthyS it.messageId = true := by
      rw [hmid]
      simp [jsTruthyS, sbeq_of_ne hmidne]
    have hacc : List.foldl (processItem synthId)
        { combinedText := "", quickReplies := none, hasContent := false } [it]
        = { combinedText := "", quickReplies := none, hasContent := false } := by
      simp [processItem, hown, hqrd]
    rw [processOutputStack_single synthId botNonce now convId it htruthy]
    rw [show buildGroupMessage synthId botNonce now convId
        (it.messageId.getD "") [it] = none by
      simp [buildGroupMessage, hacc, filterThinkingTags, jsTrimStr, jsTrim,
        collapseWs]]

/-- Quick-replies payload with whitespace-free text, for the C5 witness. -/
def witQR : QuickRepliesData :=
  { text := some "PickOne", quickReplies := some [cexReply] }

/-- C5 witness item 1: no own text, quick replies only. -/
def wit1Item : OutputItem :=
  { text := .undef, dataText := .undef, dataType := some "quickReplies",
    messageId := some "mA", qrData1 := none, qrData2 := some witQR,
    qrData3 := none }

/-- C5 witness item 2: own text plus quick replies. -/
def wit2Item : OutputItem :=
  { text := .str "OwnWords", dataText := .undef,
    dataType := some "quickReplies", messageId := some "mA",
    qrData1 := none, qrData2 := some witQR, qrData3 := none }

/-- C5 witness item 3: no text and no quick-reply data. -/
def wit3Item : OutputItem :=
  { text := .undef, dataText := .undef, dataType := none,
    messageId := some "mB", qrData1 := none, qrData2 := none,
    qrData3 := none }

/-- Witness for the three parts of the C5 policy. -/
theorem C5_quick_reply_policy_witness :
    ((processOutputStack "s" "r" 0 "c" [wit1Item]).map (fun m => m.text)
      = ["PickOne" ++ "\n\n" ++ "PickOne"]) ∧
    ((processOutputStack "s" "r" 0 "c" [wit2Item]).map (fun m => m.text)
      = ["OwnWords" ++ "\n\n" ++ "PickOne"]) ∧
    processOutputStack "s" "r" 0 "c" [wit3Item] = [] :=
  ⟨C5_quick_reply_policy.1 "s" "r" 0 "c" "mA" "PickOne" wit1Item witQR
      [cexReply] rfl (by decide) (by decide) rfl rfl rfl (by decide)
      (by decide) (by decide) (by decide),
   C5_quick_reply_policy.2.1 "s" "r" 0 "c" "mA" "PickOne" "OwnWords" wit2Item
      witQR [cexReply] rfl (by decide) (by decide) (by decide) (by decide)
      (by decide) (by decide) rfl rfl rfl (by decide) (by decide) (by decide)
      (by decide),
   C5_quick_reply_policy.2.2 "s" "r" 0 "c" "mB" wit3Item rfl (by decide)
      (by decide) rfl⟩
